import Mathlib

/-!
# EchoSub: the inline video player (`internal/media/inline_player.go`)

A shallow embedding of `InlineVideoPlayer`: the play/pause/stop/seek state
machine, the bounded frame cache, the prefetch queue and one iteration of the
playback loop; with it the metadata parser of `ffmpeg.go`, the duration
formatter of `player.go` and, in the namespace `UI`, the two formatters of
`internal/ui/media_view.go`.

Modelling conventions
* `time.Duration` is an `Int` number of nanoseconds.
* `frameRate` is a `float64` in the source that only ever holds `0` (the zero
  value) or `15.0`; it is a `Nat` here.
* The expressions `int(d.Seconds() * frameRate)` of `Seek` and `playFrames` and
  the timestamp of `extractFrame` are evaluated in `float64`: `Float64` holds a
  finite value `mant * 2^exp`, every operation rounds the exact result to 53
  significant bits, ties to even, and the conversion to `int` truncates. The
  values that occur are far from the overflow and underflow of the format, so
  the exponent is not bounded. `Duration.Seconds()` is its library body,
  `float64(d / Second) + float64(d % Second) / 1e9`.
* A method that mutates the receiver returns an `Outcome`: the new receiver,
  how the call completed, and the effects it had on the outside (observer calls,
  goroutines started, channel sends), in program order.
* Each method body that runs under `p.mu` (or `p.cacheMutex`) is one atomic
  step; a goroutine started with `go` is recorded as an effect and its body is a
  step of its own.
* The external `ffmpeg` invocation inside `extractFrame` and the key that Go's
  map iteration visits first are parameters (`ffmpeg`, `pick`), so every theorem
  holds for every behaviour of both.
* `stopChan` is unbuffered, and both its send (in `Stop`) and its receive (in
  `playFrames`) are non-blocking; whether a pass of the loop receives on it is
  the parameter `stopReceived`. `preloadChan` is the list of queued requests,
  oldest first.
* `preloadStop` is unbuffered; its send (in `Close`) is non-blocking and its
  receive (in `preloadFrames`) is one case of a blocking `select`, so the send
  is taken only by a worker that is blocked there. An `Engine` is a player with
  its live workers.
-/

set_option maxRecDepth 100000

namespace Media

/-- A decoded frame (the `*image.Image` of the source); only its identity matters. -/
structure Image where
  id : Nat
deriving DecidableEq, Repr

/-- The `MediaFile` record of `types.go`; `Duration` is in nanoseconds. -/
structure MediaFile where
  Path : String
  Name : String
  Format : String
  Duration : Int
  Size : Int
  HasVideo : Bool
  HasAudio : Bool
  VideoCodec : String
  AudioCodec : String
  SampleRate : Int
  Channels : Int
  Width : Int
  Height : Int
  CoverPath : String
  PosterFrame : String
  WaveformPath : String
deriving DecidableEq, Repr

/-- The errors built with `fmt.Errorf` in `inline_player.go`. -/
inductive PlayerError where
  /-- The text "no video loaded". -/
  | noVideoLoaded
  /-- The text "position out of range". -/
  | positionOutOfRange
  /-- The `lastErr` of `extractFrame` after both ffmpeg attempts failed. -/
  | extractionFailed
  /-- The wrapper "failed to load frame: %w" built by the frame goroutines. -/
  | failedToLoadFrame (cause : PlayerError)
deriving DecidableEq, Repr

/-- The frame cache `map[int]*image.Image`: a finite map with distinct keys. -/
abbrev FrameCache := AList (fun _ : Int => Image)

/-- The value `float64(position) / float64(duration) * 100` handed to
`onProgressChanged`: a number, or not a finite number when `duration` is `0`. -/
inductive Progress where
  | finite (percent : ℚ)
  | notFinite
deriving DecidableEq

/-- The expression `float64(position) / float64(duration) * 100`. -/
def progressPercent (position duration : Int) : Progress :=
  if duration = 0 then Progress.notFinite
  else Progress.finite ((position : ℚ) / (duration : ℚ) * 100)

/-- What a call does to the outside world. -/
inductive Effect where
  /-- A call `p.onPlayStateChanged(playing)`. -/
  | playStateChanged (playing : Bool)
  /-- A call `p.onProgressChanged(progress)`. -/
  | progressChanged (progress : Progress)
  /-- A call `p.onFrameReady(frame)`. -/
  | frameReady (frame : Image)
  /-- A call `p.onError(err)`. -/
  | errorReported (err : PlayerError)
  /-- The statement `go p.playFrames()`. -/
  | spawnPlayFrames
  /-- The statement `go p.preloadFrames()`. -/
  | spawnPreloadFrames
  /-- The statement `go func() { p.getFrame(frameNumber) ... }()` of `Seek` and `playFrames`. -/
  | spawnFrameTask (frameNumber : Int)
  /-- The prefetch goroutine `go func() { for i := 1; i <= 3; i++ ... }()` of `getFrame`. -/
  | spawnPrefetch (frameNumber : Int)
  /-- The non-blocking send `p.stopChan <- true`. -/
  | stopSignal
  /-- The non-blocking send `p.preloadStop <- true`. -/
  | preloadStopSignal
deriving DecidableEq

/-- How a call ended: it returned (with an error or `nil`), or it panicked. -/
inductive Completion where
  | returned (err : Option PlayerError)
  | panicked
deriving DecidableEq, Repr

/-- The `InlineVideoPlayer` struct. The four observer fields record whether the
callback is non-nil; the mutexes and the unbuffered channels hold no data. -/
structure InlineVideoPlayer where
  mediaFile : Option MediaFile
  frameRate : Nat
  isPlaying : Bool
  isPaused : Bool
  position : Int
  duration : Int
  currentFrame : Int
  frameCache : FrameCache
  maxCacheSize : Int
  preloadChan : List Int
  onFrameReady : Bool
  onError : Bool
  onPlayStateChanged : Bool
  onProgressChanged : Bool
deriving DecidableEq

/-- The result of a method call on the player. -/
structure Outcome where
  state : InlineVideoPlayer
  completion : Completion
  effects : List Effect

/-- The constructor `NewInlineVideoPlayer`. -/
def NewInlineVideoPlayer : InlineVideoPlayer :=
  { mediaFile := none, frameRate := 0, isPlaying := false, isPaused := false,
    position := 0, duration := 0, currentFrame := 0,
    frameCache := ∅, maxCacheSize := 50, preloadChan := [],
    onFrameReady := false, onError := false,
    onPlayStateChanged := false, onProgressChanged := false }

/-- The capacity of `preloadChan` (`make(chan int, 10)`). -/
def preloadChanCap : Nat := 10

/-- The method `SetCallbacks`; an argument is `true` when the function passed is non-nil. -/
def InlineVideoPlayer.SetCallbacks (p : InlineVideoPlayer)
    (onFrameReady onError onPlayStateChanged onProgressChanged : Bool) : InlineVideoPlayer :=
  { p with onFrameReady := onFrameReady, onError := onError,
           onPlayStateChanged := onPlayStateChanged,
           onProgressChanged := onProgressChanged }

/-- The method `LoadVideo`. The argument is `none` for a nil `*MediaFile`: the
field `mediaFile` has been assigned when `mediaFile.Duration` dereferences nil. -/
def InlineVideoPlayer.LoadVideo (p : InlineVideoPlayer) (mediaFile : Option MediaFile) : Outcome :=
  match mediaFile with
  | none => { state := { p with mediaFile := none }, completion := Completion.panicked, effects := [] }
  | some m =>
    { state := { p with mediaFile := some m, duration := m.Duration, frameRate := 15,
                        currentFrame := 0, position := 0, frameCache := ∅ },
      completion := Completion.returned none,
      effects := [Effect.spawnPreloadFrames] }

/-- A finite `float64` that is not negative: the number `mant * 2^exp`. -/
structure Float64 where
  mant : Nat
  exp : Int
deriving DecidableEq, Repr

/-- The number a `Float64` stands for. -/
def Float64.toRat (x : Float64) : ℚ := (x.mant : ℚ) * (2 : ℚ) ^ x.exp

/-- The whole number nearest to `num / den`, a tie going to the even one. -/
def roundHalfEven (num den : Nat) : Nat :=
  if 2 * (num % den) < den then num / den
  else if den < 2 * (num % den) then num / den + 1
  else if (num / den) % 2 = 0 then num / den
  else num / den + 1

/-- The position of the highest set bit of `n` (0 for `n < 2`); `fuel` bounds
the number of halvings and is enough when `n < 2^fuel`. -/
def log2Floor : Nat → Nat → Nat
  | 0, _ => 0
  | fuel + 1, n => if n < 2 then 0 else log2Floor fuel (n / 2) + 1

/-- The numerator of `num / den / 2^e` as a fraction of whole numbers. -/
def scaledNum (num : Nat) (e : Int) : Nat := num * 2 ^ (-e).toNat

/-- The denominator of `num / den / 2^e` as a fraction of whole numbers. -/
def scaledDen (den : Nat) (e : Int) : Nat := den * 2 ^ e.toNat

/-- The exponent of the last place of the `float64` nearest to `num / den`: the
`e` with `2^52 ≤ num / den / 2^e < 2^53` (53 significant bits). -/
def ulpExp (num den : Nat) : Int :=
  if 2 ^ 52 * scaledDen den ((log2Floor num num : Int) - (log2Floor den den : Int) - 52)
      ≤ scaledNum num ((log2Floor num num : Int) - (log2Floor den den : Int) - 52)
  then (log2Floor num num : Int) - (log2Floor den den : Int) - 52
  else (log2Floor num num : Int) - (log2Floor den den : Int) - 52 - 1

/-- The `float64` nearest to `num / den * 2^scale`, ties to even: the rounding
every IEEE-754 operation ends with. Overflow and subnormal numbers do not occur
for the magnitudes of this program (nanoseconds and frame counts of an `int64`)
and are not modelled; a zero denominator gives 0. -/
def Float64.round (num den : Nat) (scale : Int) : Float64 :=
  if num = 0 ∨ den = 0 then { mant := 0, exp := 0 }
  else
    { mant := roundHalfEven (scaledNum num (ulpExp num den)) (scaledDen den (ulpExp num den)),
      exp := ulpExp num den + scale }

/-- The conversion `float64(n)` of a whole number that is not negative. -/
def Float64.ofNat (n : Nat) : Float64 := Float64.round n 1 0

/-- The `float64` sum `x + y`. -/
def Float64.add (x y : Float64) : Float64 :=
  Float64.round
    (x.mant * 2 ^ (x.exp - min x.exp y.exp).toNat + y.mant * 2 ^ (y.exp - min x.exp y.exp).toNat)
    1 (min x.exp y.exp)

/-- The `float64` product `x * y`. -/
def Float64.mul (x y : Float64) : Float64 :=
  Float64.round (x.mant * y.mant) 1 (x.exp + y.exp)

/-- The `float64` quotient `x / y`. -/
def Float64.div (x y : Float64) : Float64 :=
  Float64.round x.mant y.mant (x.exp - y.exp)

/-- The conversion of a `float64` to an integer type: the fraction is dropped. -/
def Float64.toNat (x : Float64) : Nat :=
  if 0 ≤ x.exp then x.mant * 2 ^ x.exp.toNat else x.mant / 2 ^ (-x.exp).toNat

/-- The method `Duration.Seconds` of package `time` on `d` nanoseconds:
`float64(d / Second) + float64(d % Second) / 1e9`. -/
def durationSeconds (d : Nat) : Float64 :=
  Float64.add (Float64.ofNat (d / 1000000000))
    (Float64.div (Float64.ofNat (d % 1000000000)) (Float64.ofNat 1000000000))

/-- The Go expression `int(d.Seconds() * frameRate)` for `d ≥ 0` nanoseconds. -/
def secondsTimesRateNat (d : Nat) (frameRate : Nat) : Nat :=
  (Float64.mul (durationSeconds d) (Float64.ofNat frameRate)).toNat

/-- The Go expression `int(d.Seconds() * frameRate)` for a duration `d` in
nanoseconds, in `float64` as the source computes it. A negative duration gives
the negated result of its absolute value (rounding and truncation are symmetric). -/
def secondsTimesRate (d : Int) (frameRate : Nat) : Int :=
  if 0 ≤ d then Int.ofNat (secondsTimesRateNat d.toNat frameRate)
  else - Int.ofNat (secondsTimesRateNat (-d).toNat frameRate)

/-- The expression `len(p.frameCache)`. -/
def cacheLen (c : FrameCache) : Nat := c.keys.length

/-- The loop `for k := range p.frameCache { delete(p.frameCache, k); break }`:
one key is deleted, the one the iteration happens to visit first (`pick`). -/
def evictOne (pick : Nat) (c : FrameCache) : FrameCache :=
  match c.keys[pick % c.keys.length]? with
  | some k => c.erase k
  | none => c

/-- The critical section shared by `getFrame` (lines 205-217) and `preloadFrames`
(lines 90-102): evict one entry when the cache is full, then store the frame. -/
def cacheStore (maxCacheSize : Int) (pick : Nat) (c : FrameCache)
    (frameNum : Int) (frame : Image) : FrameCache :=
  (if (cacheLen c : Int) ≥ maxCacheSize then evictOne pick c else c).insert frameNum frame

/-- The method `extractFrame`; `ffmpeg` is what the two ffmpeg attempts produce
(`none` when both fail). -/
def InlineVideoPlayer.extractFrame (p : InlineVideoPlayer) (_frameNumber : Int)
    (ffmpeg : Option Image) : Except PlayerError Image :=
  match p.mediaFile with
  | none => Except.error PlayerError.noVideoLoaded
  | some _ =>
    match ffmpeg with
    | some img => Except.ok img
    | none => Except.error PlayerError.extractionFailed

/-- The result of `getFrame`. -/
structure FrameResult where
  state : InlineVideoPlayer
  result : Except PlayerError Image
  effects : List Effect

/-- The method `getFrame`: a cache hit returns at once; a miss extracts, stores
the frame and starts the prefetch goroutine. -/
def InlineVideoPlayer.getFrame (p : InlineVideoPlayer) (frameNumber : Int)
    (ffmpeg : Option Image) (pick : Nat) : FrameResult :=
  match p.frameCache.lookup frameNumber with
  | some cachedFrame => { state := p, result := Except.ok cachedFrame, effects := [] }
  | none =>
    match p.extractFrame frameNumber ffmpeg with
    | Except.error err => { state := p, result := Except.error err, effects := [] }
    | Except.ok frame =>
      { state := { p with frameCache :=
                    cacheStore p.maxCacheSize pick p.frameCache frameNumber frame },
        result := Except.ok frame,
        effects := [Effect.spawnPrefetch frameNumber] }

/-- The non-blocking send `select { case p.preloadChan <- x: default: return }`:
`none` when the buffer is full. -/
def trySendPreload (queue : List Int) (x : Int) : Option (List Int) :=
  if queue.length < preloadChanCap then some (queue ++ [x]) else none

/-- The body of the prefetch goroutine of `getFrame`, over the frames still to send. -/
def prefetchLoop : List Int → List Int → List Int
  | queue, [] => queue
  | queue, x :: rest =>
    match trySendPreload queue x with
    | some queue1 => prefetchLoop queue1 rest
    | none => queue

/-- The prefetch goroutine started by `getFrame frameNumber`. -/
def InlineVideoPlayer.requestPrefetch (p : InlineVideoPlayer) (frameNumber : Int) :
    InlineVideoPlayer :=
  { p with preloadChan :=
      prefetchLoop p.preloadChan [frameNumber + 1, frameNumber + 2, frameNumber + 3] }

/-- One iteration of the `preloadFrames` worker on the request at the head of
`preloadChan` (with nothing queued the worker blocks and nothing changes). -/
def InlineVideoPlayer.preloadFramesStep (p : InlineVideoPlayer)
    (ffmpeg : Option Image) (pick : Nat) : InlineVideoPlayer :=
  match p.preloadChan with
  | [] => p
  | frameNum :: rest =>
    let p1 := { p with preloadChan := rest }
    match p1.frameCache.lookup frameNum with
    | some _ => p1
    | none =>
      match p1.extractFrame frameNum ffmpeg with
      | Except.ok frame =>
        { p1 with frameCache := cacheStore p1.maxCacheSize pick p1.frameCache frameNum frame }
      | Except.error _ => p1

/-- The frame goroutine of `Seek` and `playFrames`: resolve the frame, then call
`onFrameReady` or `onError`. -/
def InlineVideoPlayer.frameTask (p : InlineVideoPlayer) (frameNumber : Int)
    (ffmpeg : Option Image) (pick : Nat) : Outcome :=
  let r := p.getFrame frameNumber ffmpeg pick
  match r.result with
  | Except.ok frame =>
    { state := r.state, completion := Completion.returned none,
      effects := r.effects ++ (if p.onFrameReady then [Effect.frameReady frame] else []) }
  | Except.error err =>
    { state := r.state, completion := Completion.returned none,
      effects := r.effects ++
        (if p.onError then [Effect.errorReported (PlayerError.failedToLoadFrame err)] else []) }

/-- The method `Play`. -/
def InlineVideoPlayer.Play (p : InlineVideoPlayer) : Outcome :=
  match p.mediaFile with
  | none => { state := p, completion := Completion.returned (some PlayerError.noVideoLoaded),
              effects := [] }
  | some _ =>
    if p.isPlaying && !p.isPaused then
      { state := p, completion := Completion.returned none, effects := [] }
    else
      { state := { p with isPlaying := true, isPaused := false },
        completion := Completion.returned none,
        effects := Effect.spawnPlayFrames ::
          (if p.onPlayStateChanged then [Effect.playStateChanged true] else []) }

/-- The method `Pause`. -/
def InlineVideoPlayer.Pause (p : InlineVideoPlayer) : Outcome :=
  { state := { p with isPaused := true },
    completion := Completion.returned none,
    effects := if p.onPlayStateChanged then [Effect.playStateChanged false] else [] }

/-- The method `Stop`. -/
def InlineVideoPlayer.Stop (p : InlineVideoPlayer) : Outcome :=
  { state := { p with isPlaying := false, isPaused := false, currentFrame := 0, position := 0 },
    completion := Completion.returned none,
    effects := Effect.stopSignal ::
      (if p.onPlayStateChanged then [Effect.playStateChanged false] else []) }

/-- The method `Seek`. -/
def InlineVideoPlayer.Seek (p : InlineVideoPlayer) (position : Int) : Outcome :=
  match p.mediaFile with
  | none => { state := p, completion := Completion.returned (some PlayerError.noVideoLoaded),
              effects := [] }
  | some _ =>
    if position < 0 ∨ position > p.duration then
      { state := p, completion := Completion.returned (some PlayerError.positionOutOfRange),
        effects := [] }
    else
      let frameNumber0 := secondsTimesRate position p.frameRate
      let frameNumber := if frameNumber0 < 0 then 0 else frameNumber0
      { state := { p with position := position, currentFrame := frameNumber },
        completion := Completion.returned none,
        effects :=
          (if p.onProgressChanged then
            [Effect.progressChanged (progressPercent position p.duration)] else []) ++
          [Effect.spawnFrameTask frameNumber] }

/-- The locals a `playFrames` goroutine computes before its loop. -/
structure PlayLoop where
  maxFrames : Int
deriving DecidableEq, Repr

/-- The prologue of `playFrames`: `maxFrames := int(p.duration.Seconds() * p.frameRate)`. -/
def InlineVideoPlayer.playFramesStart (p : InlineVideoPlayer) : PlayLoop :=
  { maxFrames := secondsTimesRate p.duration p.frameRate }

/-- The result of one pass through the loop of `playFrames`. -/
structure TickResult where
  state : InlineVideoPlayer
  effects : List Effect
  /-- Whether the goroutine goes on to another iteration. -/
  running : Bool

/-- One pass of a `playFrames` goroutine: the loop test, the poll of `stopChan`
(`stopReceived` says whether the receive succeeded), the locked body; when the
loop test fails, the epilogue after the loop. -/
def InlineVideoPlayer.playFramesTick (p : InlineVideoPlayer) (loop : PlayLoop)
    (stopReceived : Bool) : TickResult :=
  if p.currentFrame < loop.maxFrames then
    if stopReceived then { state := p, effects := [], running := false }
    else if !p.isPlaying || p.isPaused then { state := p, effects := [], running := false }
    else
      let currentFrame := p.currentFrame
      let position := Int.tdiv currentFrame (p.frameRate : Int) * 1000000000
      { state := { p with currentFrame := currentFrame + 1, position := position },
        effects :=
          (if p.onProgressChanged then
            [Effect.progressChanged (progressPercent position p.duration)] else []) ++
          [Effect.spawnFrameTask currentFrame],
        running := true }
  else
    { state := { p with isPlaying := false },
      effects := if p.onPlayStateChanged then [Effect.playStateChanged false] else [],
      running := false }

/-- The method `GetPosition`. -/
def InlineVideoPlayer.GetPosition (p : InlineVideoPlayer) : Int := p.position

/-- The method `GetDuration`. -/
def InlineVideoPlayer.GetDuration (p : InlineVideoPlayer) : Int := p.duration

/-- The method `IsPlaying`. -/
def InlineVideoPlayer.IsPlaying (p : InlineVideoPlayer) : Bool := p.isPlaying && !p.isPaused

/-- The method `IsPaused`. -/
def InlineVideoPlayer.IsPaused (p : InlineVideoPlayer) : Bool := p.isPaused

/-- The method `Close`: `Stop`, the stop signal for the prefetch worker, an empty cache. -/
def InlineVideoPlayer.Close (p : InlineVideoPlayer) : Outcome :=
  let s := p.Stop
  { state := { s.state with frameCache := ∅ },
    completion := Completion.returned none,
    effects := s.effects ++ [Effect.preloadStopSignal] }

/-- The atomic steps that can happen to a player: the exported methods, one pass
of a playback loop, and the steps of the frame, prefetch and preload goroutines.
`store` is the bare critical section of `getFrame` and `preloadFrames`, for a
goroutine whose cache lookup happened before other goroutines stored frames. -/
inductive Action where
  | setCallbacks (onFrameReady onError onPlayStateChanged onProgressChanged : Bool)
  | loadVideo (mediaFile : MediaFile)
  | play
  | pause
  | stop
  | close
  | seek (position : Int)
  | tick (loop : PlayLoop) (stopReceived : Bool)
  | frameTask (frameNumber : Int) (ffmpeg : Option Image) (pick : Nat)
  | store (frameNumber : Int) (frame : Image) (pick : Nat)
  | prefetch (frameNumber : Int)
  | preload (ffmpeg : Option Image) (pick : Nat)

/-- Whether the action is a pass of a playback loop. -/
def Action.isTick : Action → Bool
  | Action.tick _ _ => true
  | _ => false

/-- The player after one action. -/
def InlineVideoPlayer.step (p : InlineVideoPlayer) : Action → InlineVideoPlayer
  | Action.setCallbacks a b c d => p.SetCallbacks a b c d
  | Action.loadVideo m => (p.LoadVideo (some m)).state
  | Action.play => p.Play.state
  | Action.pause => p.Pause.state
  | Action.stop => p.Stop.state
  | Action.close => p.Close.state
  | Action.seek position => (p.Seek position).state
  | Action.tick loop stopReceived => (p.playFramesTick loop stopReceived).state
  | Action.frameTask frameNumber ffmpeg pick => (p.frameTask frameNumber ffmpeg pick).state
  | Action.store frameNumber frame pick =>
    { p with frameCache := cacheStore p.maxCacheSize pick p.frameCache frameNumber frame }
  | Action.prefetch frameNumber => p.requestPrefetch frameNumber
  | Action.preload ffmpeg pick => p.preloadFramesStep ffmpeg pick

/-- The player after a sequence of actions, in order. -/
def InlineVideoPlayer.run (p : InlineVideoPlayer) (actions : List Action) : InlineVideoPlayer :=
  actions.foldl InlineVideoPlayer.step p

/-- The player after `n` passes of the playback loop `loop`, none of which
receives on `stopChan`. -/
def InlineVideoPlayer.ticks (p : InlineVideoPlayer) (loop : PlayLoop) : Nat → InlineVideoPlayer
  | 0 => p
  | n + 1 => ((p.ticks loop n).playFramesTick loop false).state

/-- A ten-second video, as `LoadMediaFile` would describe it. -/
def sampleFile : MediaFile :=
  { Path := "clip.mp4", Name := "clip.mp4", Format := "mp4", Duration := 10000000000,
    Size := 1048576, HasVideo := true, HasAudio := false, VideoCodec := "h264",
    AudioCodec := "", SampleRate := 0, Channels := 0, Width := 640, Height := 360,
    CoverPath := "", PosterFrame := "", WaveformPath := "" }

/-- A new player with all four observers registered, as `NewMediaView` sets it up. -/
def viewPlayer : InlineVideoPlayer :=
  NewInlineVideoPlayer.SetCallbacks true true true true

/-- The view's player after `LoadVideo sampleFile`. -/
def loadedPlayer : InlineVideoPlayer :=
  (viewPlayer.LoadVideo (some sampleFile)).state

/-- A second, four-second video. -/
def secondFile : MediaFile :=
  { sampleFile with Path := "next.mp4", Name := "next.mp4", Duration := 4000000000 }

/-- The view's player while it plays `sampleFile` from the start. -/
def playingPlayer : InlineVideoPlayer := loadedPlayer.Play.state

/-- The cache bound: the capacity is the 50 of `NewInlineVideoPlayer` and the
cache holds at most that many frames. -/
def CacheBounded (p : InlineVideoPlayer) : Prop :=
  p.maxCacheSize = 50 ∧ cacheLen p.frameCache ≤ 50

/-- The field `position` is exactly `currentFrame / frameRate` seconds
(cross-multiplied, `position` being in nanoseconds). -/
def PositionMatchesCursor (p : InlineVideoPlayer) : Prop :=
  p.position * (p.frameRate : Int) = p.currentFrame * 1000000000

/-- The field `currentFrame` is the whole number of frames in `position`:
`int(position.Seconds() * frameRate)`. -/
def CursorIsFrameOfPosition (p : InlineVideoPlayer) : Prop :=
  p.currentFrame = secondsTimesRate p.position p.frameRate

/-- One iteration of the `preloadFrames` worker as a call: its body calls no
observer and starts no goroutine, so the effect list is empty whatever happens. -/
def InlineVideoPlayer.preloadFramesOutcome (p : InlineVideoPlayer)
    (ffmpeg : Option Image) (pick : Nat) : Outcome :=
  { state := p.preloadFramesStep ffmpeg pick,
    completion := Completion.returned none,
    effects := [] }

/-- The data fields of the `MediaPlayer` struct of `player.go`. -/
structure MediaPlayer where
  mediaFile : Option MediaFile
  isPlaying : Bool
  isPaused : Bool
  position : Int
  duration : Int
deriving DecidableEq

/-- The method `MediaPlayer.getProgress` of `player.go`, with its guard for a
zero duration. -/
def MediaPlayer.getProgress (mp : MediaPlayer) : Progress :=
  if mp.duration = 0 then Progress.finite 0
  else progressPercent mp.position mp.duration

/-- The method `MediaPlayer.LoadMedia` of `player.go` on a present media file. -/
def MediaPlayer.LoadMedia (mp : MediaPlayer) (mediaFile : MediaFile) : MediaPlayer :=
  { mp with mediaFile := some mediaFile, duration := mediaFile.Duration, position := 0,
            isPlaying := false, isPaused := false }

/-- The frames for which a frame goroutine was started, in program order. -/
def dispatchedFrames : List Effect → List Int
  | [] => []
  | Effect.spawnFrameTask frameNumber :: rest => frameNumber :: dispatchedFrames rest
  | _ :: rest => dispatchedFrames rest

/-- The progress values handed to `onProgressChanged`, in program order. -/
def reportedProgress : List Effect → List Progress
  | [] => []
  | Effect.progressChanged progress :: rest => progress :: reportedProgress rest
  | _ :: rest => reportedProgress rest

/-- A progress value is a number in the closed interval from 0 to 100. -/
def Progress.inRange : Progress → Prop
  | Progress.finite percent => 0 ≤ percent ∧ percent ≤ 100
  | Progress.notFinite => False

/-- What a `playFrames` goroutine did from its first loop test to its return. -/
structure LoopRun where
  state : InlineVideoPlayer
  effects : List Effect
  /-- The number of loop bodies that advanced the cursor. -/
  ticks : Nat

/-- The loop and epilogue of `playFrames` when nothing else touches the player and
nothing is received on `stopChan`: passes are made until one ends the goroutine.
`fuel` bounds the number of passes; `none` means the bound was reached first. -/
def playFramesLoop (loop : PlayLoop) : Nat → InlineVideoPlayer → Option LoopRun
  | 0, _ => none
  | fuel + 1, p =>
    if (p.playFramesTick loop false).running then
      match playFramesLoop loop fuel (p.playFramesTick loop false).state with
      | some run =>
        some { state := run.state,
               effects := (p.playFramesTick loop false).effects ++ run.effects,
               ticks := run.ticks + 1 }
      | none => none
    else
      some { state := (p.playFramesTick loop false).state,
             effects := (p.playFramesTick loop false).effects,
             ticks := 0 }

/-- The method `playFrames`, run alone: prologue, then loop and epilogue. -/
def InlineVideoPlayer.playFrames (p : InlineVideoPlayer) (fuel : Nat) : Option LoopRun :=
  playFramesLoop p.playFramesStart fuel p

/-- The new cache is the old one with one entry evicted and `frameNum` stored:
as many entries as before, `frameNum` mapped to `frame`, one key of the old
cache gone, every other key mapped as before. -/
def StoredWithOneEviction (old new : FrameCache) (frameNum : Int) (frame : Image) : Prop :=
  cacheLen new = cacheLen old ∧
  new.lookup frameNum = some frame ∧
  ∃ evicted : Int, evicted ∈ old.keys ∧ evicted ≠ frameNum ∧ new.lookup evicted = none ∧
    ∀ k : Int, k ≠ frameNum → k ≠ evicted → new.lookup k = old.lookup k

/-- A cache holding the frames 0 to 49. -/
def fullCache : FrameCache :=
  (List.range 50).foldl
    (fun (c : FrameCache) (i : Nat) => c.insert (Int.ofNat i) { id := i }) ∅

/-- The loaded player with a full cache. -/
def fullPlayer : InlineVideoPlayer :=
  { loadedPlayer with frameCache := fullCache }

/-- The loaded player after frame 3 was resolved and cached. -/
def cachedPlayer : InlineVideoPlayer :=
  (loadedPlayer.frameTask 3 (some { id := 3 }) 0).state

/-- A video whose duration is reported as 0. -/
def zeroFile : MediaFile :=
  { sampleFile with Path := "still.mp4", Name := "still.mp4", Duration := 0 }

/-- The view's player after `LoadVideo zeroFile`. -/
def zeroDurationPlayer : InlineVideoPlayer :=
  (viewPlayer.LoadVideo (some zeroFile)).state

/-- The view's player that was playing `sampleFile` when `secondFile` (4 s) was
loaded and the slider then moved to the end of the new video. -/
def reloadedPlayer : InlineVideoPlayer :=
  ((playingPlayer.LoadVideo (some secondFile)).state.Seek 4000000000).state

/-- The loaded player after the prefetch goroutine of `getFrame 3` ran: the
frames 4, 5 and 6 are queued for the prefetch worker. -/
def queuedPlayer : InlineVideoPlayer := loadedPlayer.requestPrefetch 3

/-- A `MediaPlayer` with `zeroFile` loaded. -/
def zeroDurationMediaPlayer : MediaPlayer :=
  MediaPlayer.LoadMedia
    { mediaFile := none, isPlaying := false, isPaused := false, position := 0, duration := 0 }
    zeroFile

/-- The expression of `extractFrame` that turns a frame index `f ≥ 0` into the
timestamp handed to ffmpeg:
`time.Duration(float64(frameNumber) / p.frameRate * float64(time.Second))`. -/
def frameTimeNat (frameNumber : Nat) (frameRate : Nat) : Nat :=
  (Float64.mul (Float64.div (Float64.ofNat frameNumber) (Float64.ofNat frameRate))
    (Float64.ofNat 1000000000)).toNat

/-- The timestamp `extractFrame` computes for a frame index, in nanoseconds, in
`float64` as the source computes it; a negative index gives the negated result
of its absolute value. -/
def frameTime (frameNumber : Int) (frameRate : Nat) : Int :=
  if 0 ≤ frameNumber then Int.ofNat (frameTimeNat frameNumber.toNat frameRate)
  else - Int.ofNat (frameTimeNat (-frameNumber).toNat frameRate)

/-- A player together with the `playFrames` goroutines that have been started
and have not returned yet, oldest first. A goroutine is entered with the
`maxFrames` of the player at the `go` statement (duration and frame rate are
only written by `LoadVideo`). -/
structure Session where
  player : InlineVideoPlayer
  loops : List PlayLoop

/-- What can happen next in a session: a call of `Play` or `Pause`, or the next
pass of the live loop number `index`. -/
inductive SessionEvent where
  | play
  | pause
  | tick (index : Nat)
deriving DecidableEq

/-- The session after one event. `Play` adds a loop when it executes
`go p.playFrames()`; a pass that ends its goroutine removes that loop. -/
def Session.step (s : Session) : SessionEvent → Session
  | SessionEvent.play =>
    { player := s.player.Play.state,
      loops := s.loops ++
        (if Effect.spawnPlayFrames ∈ s.player.Play.effects
          then [s.player.Play.state.playFramesStart] else []) }
  | SessionEvent.pause => { player := s.player.Pause.state, loops := s.loops }
  | SessionEvent.tick index =>
    match s.loops[index]? with
    | none => s
    | some loop =>
      { player := (s.player.playFramesTick loop false).state,
        loops := if (s.player.playFramesTick loop false).running
          then s.loops else s.loops.eraseIdx index }

/-- The session after a sequence of events, in order. -/
def Session.run (s : Session) (events : List SessionEvent) : Session :=
  events.foldl Session.step s

/-- Every `Play` in the sequence is called when the player is already Playing or
when no loop is live: a loop that was paused has made its next pass, and so has
returned, before `Play` is called again. -/
def Session.playsWait (s : Session) : List SessionEvent → Bool
  | [] => true
  | SessionEvent.play :: rest =>
    (s.player.IsPlaying || s.loops.isEmpty) && (s.step SessionEvent.play).playsWait rest
  | SessionEvent.pause :: rest => (s.step SessionEvent.pause).playsWait rest
  | SessionEvent.tick index :: rest => (s.step (SessionEvent.tick index)).playsWait rest

/-- The session of the view after `LoadVideo sampleFile`: no loop yet. -/
def loadedSession : Session := { player := loadedPlayer, loops := [] }

/-- A video of 8.2 seconds. -/
def shortFile : MediaFile :=
  { sampleFile with Path := "short.mp4", Name := "short.mp4", Duration := 8200000000 }

/-- The view's player while it plays `shortFile` from the start. -/
def shortPlayingPlayer : InlineVideoPlayer :=
  (viewPlayer.LoadVideo (some shortFile)).state.Play.state

/-- Where a live `preloadFrames` goroutine stands: `waiting` when it is blocked in
the `select` of its loop, nothing being queued for it; `running` anywhere else
(started and not yet at the `select`, or inside the body of the `preloadChan`
case, where `extractFrame` waits for ffmpeg). -/
inductive WorkerPhase where
  | waiting
  | running
deriving DecidableEq, Repr

/-- A player together with the `preloadFrames` goroutines that have been started
and have not returned, oldest first. -/
structure Engine where
  player : InlineVideoPlayer
  workers : List WorkerPhase

/-- The non-blocking send `select { case p.preloadStop <- true: default: }` of
`Close` on the unbuffered channel `preloadStop`: one goroutine that is blocked in
the `select` of `preloadFrames` receives the value and returns (goroutines in the
same phase are interchangeable; the oldest is taken). With no goroutine blocked
there the `default` branch runs and nothing is sent. -/
def offerPreloadStop (workers : List WorkerPhase) : List WorkerPhase :=
  workers.erase WorkerPhase.waiting

/-- What can happen next to the prefetch workers: a call of `LoadVideo` or of
`Close`, or the worker number `index` reaches its `select` and blocks there. -/
inductive EngineEvent where
  | loadVideo (mediaFile : MediaFile)
  | close
  | workerWaits (index : Nat)
deriving DecidableEq

/-- The engine after one event. `LoadVideo` adds a goroutine when it executes
`go p.preloadFrames()`; the send of `Close` goes through `offerPreloadStop`; a
worker blocks in its `select` only when `preloadChan` holds no request. -/
def Engine.step (e : Engine) : EngineEvent → Engine
  | EngineEvent.loadVideo mediaFile =>
    { player := (e.player.LoadVideo (some mediaFile)).state,
      workers := e.workers ++
        (if Effect.spawnPreloadFrames ∈ (e.player.LoadVideo (some mediaFile)).effects
          then [WorkerPhase.running] else []) }
  | EngineEvent.close =>
    { player := e.player.Close.state,
      workers := if Effect.preloadStopSignal ∈ e.player.Close.effects
        then offerPreloadStop e.workers else e.workers }
  | EngineEvent.workerWaits index =>
    if e.player.preloadChan = [] then
      { player := e.player, workers := e.workers.set index WorkerPhase.waiting }
    else e

/-- The engine after a sequence of events, in order. -/
def Engine.run (e : Engine) (events : List EngineEvent) : Engine :=
  events.foldl Engine.step e

/-- The view's engine as `NewMediaView` sets it up: no source, no worker. -/
def viewEngine : Engine := { player := viewPlayer, workers := [] }

/-- The `StreamInfo` record of `ffmpeg.go` (one stream of the ffprobe JSON). -/
structure StreamInfo where
  CodecType : String
  CodecName : String
  Width : Int
  Height : Int
  SampleRate : String
  Channels : Int
deriving DecidableEq, Repr

/-- The `FormatInfo` record of `ffmpeg.go`. -/
structure FormatInfo where
  Duration : String
  Size : String
  BitRate : String
deriving DecidableEq, Repr

/-- The `FFprobeOutput` record of `ffmpeg.go`. -/
structure FFprobeOutput where
  Format : FormatInfo
  Streams : List StreamInfo
deriving DecidableEq, Repr

/-- The `Metadata` record of `ffmpeg.go`; `Duration` is in nanoseconds. -/
structure Metadata where
  Duration : Int
  HasVideo : Bool
  HasAudio : Bool
  VideoCodec : String
  AudioCodec : String
  SampleRate : Int
  Channels : Int
  Width : Int
  Height : Int
deriving DecidableEq, Repr

/-- The value `&Metadata{}`: every field at its zero value. -/
def Metadata.empty : Metadata :=
  { Duration := 0, HasVideo := false, HasAudio := false, VideoCodec := "", AudioCodec := "",
    SampleRate := 0, Channels := 0, Width := 0, Height := 0 }

/-- The conversion `time.Duration(duration * float64(time.Second))` of a number
of seconds, in exact arithmetic, truncating toward zero. -/
def durationOfSeconds (seconds : ℚ) : Int :=
  if 0 ≤ seconds then ⌊seconds * 1000000000⌋ else ⌈seconds * 1000000000⌉

/-- The duration block of `parseFFprobeOutput`; `parseFloat` stands for
`strconv.ParseFloat(_, 64)` and is `none` when that returns an error. -/
def parseFormatDuration (parseFloat : String → Option ℚ) (metadata : Metadata)
    (format : FormatInfo) : Metadata :=
  if format.Duration ≠ "" then
    match parseFloat format.Duration with
    | some duration => { metadata with Duration := durationOfSeconds duration }
    | none => metadata
  else metadata

/-- The body of the loop over the streams in `parseFFprobeOutput`; `atoi` stands
for `strconv.Atoi` and is `none` when that returns an error. -/
def analyzeStream (atoi : String → Option Int) (metadata : Metadata) (stream : StreamInfo) :
    Metadata :=
  if stream.CodecType = "video" then
    { metadata with HasVideo := true, VideoCodec := stream.CodecName,
                    Width := stream.Width, Height := stream.Height }
  else if stream.CodecType = "audio" then
    let m := { metadata with HasAudio := true, AudioCodec := stream.CodecName,
                             Channels := stream.Channels }
    if stream.SampleRate ≠ "" then
      match atoi stream.SampleRate with
      | some sampleRate => { m with SampleRate := sampleRate }
      | none => m
    else m
  else metadata

/-- The loop `for _, stream := range ffprobeOutput.Streams` of `parseFFprobeOutput`. -/
def analyzeStreams (atoi : String → Option Int) (metadata : Metadata)
    (streams : List StreamInfo) : Metadata :=
  streams.foldl (analyzeStream atoi) metadata

/-- The error "failed to parse ffprobe JSON" of `parseFFprobeOutput`. -/
inductive ProbeError where
  | failedToParseJSON
deriving DecidableEq, Repr

/-- The method `parseFFprobeOutput`; `unmarshal` stands for `json.Unmarshal`
into an `FFprobeOutput` and is `none` when that returns an error. -/
def parseFFprobeOutput (unmarshal : String → Option FFprobeOutput)
    (parseFloat : String → Option ℚ) (atoi : String → Option Int) (output : String) :
    Except ProbeError Metadata :=
  match unmarshal output with
  | none => Except.error ProbeError.failedToParseJSON
  | some ffprobeOutput =>
    Except.ok
      (analyzeStreams atoi (parseFormatDuration parseFloat Metadata.empty ffprobeOutput.Format)
        ffprobeOutput.Streams)

/-- An ffprobe result with two video streams, a subtitle stream and an audio
stream, and no duration. -/
def sampleProbe : FFprobeOutput :=
  { Format := { Duration := "", Size := "1048576", BitRate := "800000" },
    Streams :=
      [ { CodecType := "video", CodecName := "mjpeg", Width := 320, Height := 180,
          SampleRate := "", Channels := 0 },
        { CodecType := "video", CodecName := "h264", Width := 640, Height := 360,
          SampleRate := "", Channels := 0 },
        { CodecType := "subtitle", CodecName := "srt", Width := 0, Height := 0,
          SampleRate := "", Channels := 0 },
        { CodecType := "audio", CodecName := "aac", Width := 0, Height := 0,
          SampleRate := "48000", Channels := 2 } ] }

/-- The verb `%02d` of `fmt.Sprintf`: at least two characters, padded with a zero. -/
def sprintf02d (n : Int) : String :=
  if 0 ≤ n ∧ n < 10 then "0" ++ toString n else toString n

/-- The function `formatDuration` of `player.go`; `int(d.Seconds())` is the
truncating division of the nanoseconds by a second. -/
def formatDuration (d : Int) : String :=
  let seconds := Int.tdiv d 1000000000
  let hours := Int.tdiv seconds 3600
  let minutes := Int.tdiv (Int.tmod seconds 3600) 60
  let secs := Int.tmod seconds 60
  if hours > 0 then
    sprintf02d hours ++ ":" ++ sprintf02d minutes ++ ":" ++ sprintf02d secs
  else
    sprintf02d minutes ++ ":" ++ sprintf02d secs

/-- The format both duration formatters are meant to produce, in the words of the
specification: `HH:MM:SS` with hours = s / 3600, minutes = (s mod 3600) / 60 and
seconds = s mod 60 for s the whole seconds of `d` when hours > 0, else `MM:SS`. -/
def formatDurationSpec (d : Int) : String :=
  if d / 1000000000 / 3600 > 0 then
    sprintf02d (d / 1000000000 / 3600) ++ ":" ++
      sprintf02d (d / 1000000000 % 3600 / 60) ++ ":" ++ sprintf02d (d / 1000000000 % 60)
  else
    sprintf02d (d / 1000000000 % 3600 / 60) ++ ":" ++ sprintf02d (d / 1000000000 % 60)

end Media

/-! # The view helpers (`internal/ui/media_view.go`) -/

namespace UI

/-- An `int64` product as the machine computes it: reduced to 64 bits, signed. -/
def wrapInt64 (x : Int) : Int :=
  (x + 9223372036854775808) % 18446744073709551616 - 9223372036854775808

/-- The loop `for n := size / unit; n >= unit; n /= unit { div *= unit; exp++ }`
of `formatFileSize`, from the values of `n`, `div` and `exp` at a loop test.
`fuel` bounds the number of passes; `none` means the bound was reached first. -/
def unitLoop : Nat → Int → Int → Int → Option (Int × Int)
  | 0, _, _, _ => none
  | fuel + 1, n, div, exp =>
    if n ≥ 1024 then unitLoop fuel (Int.tdiv n 1024) (wrapInt64 (div * 1024)) (exp + 1)
    else some (div, exp)

/-- The index expression `"KMGTPE"[exp]`: `none` when Go would panic. -/
def unitChar (exp : Int) : Option Char :=
  if 0 ≤ exp then "KMGTPE".toList[exp.toNat]? else none

/-- The mantissa as `%.1f` prints `float64(size)/float64(div)`, in tenths: the
quotient rounded to one decimal, ties to even (exact arithmetic). -/
def mantissaTenths (size div : Int) : Int :=
  if 2 * ((size * 10) % div) < div then (size * 10) / div
  else if 2 * ((size * 10) % div) > div then (size * 10) / div + 1
  else if ((size * 10) / div) % 2 = 0 then (size * 10) / div
  else (size * 10) / div + 1

/-- What `formatFileSize` returns: the text `"<size> B"`, or the text
`"<mantissa> <unit>B"` with the mantissa given in tenths, or a panic on the
index into the unit string. -/
inductive FileSizeText where
  | bytes (size : Int)
  | scaled (tenths : Int) (unit : Char)
  | indexOutOfRange
deriving DecidableEq, Repr

/-- The function `formatFileSize`; `none` only if 64 passes of the loop were not
enough. -/
def formatFileSize (size : Int) : Option FileSizeText :=
  if size < 1024 then some (FileSizeText.bytes size)
  else
    match unitLoop 64 (Int.tdiv size 1024) 1024 0 with
    | none => none
    | some (div, exp) =>
      match unitChar exp with
      | some unit => some (FileSizeText.scaled (mantissaTenths size div) unit)
      | none => some FileSizeText.indexOutOfRange

/-- The function `formatDuration` of `media_view.go`; `int(d.Hours())`,
`int(d.Minutes())` and `int(d.Seconds())` are the truncating divisions of the
nanoseconds by an hour, a minute and a second. -/
def formatDuration (d : Int) : String :=
  let hours := Int.tdiv d 3600000000000
  let minutes := Int.tmod (Int.tdiv d 60000000000) 60
  let seconds := Int.tmod (Int.tdiv d 1000000000) 60
  if hours > 0 then
    Media.sprintf02d hours ++ ":" ++ Media.sprintf02d minutes ++ ":" ++ Media.sprintf02d seconds
  else
    Media.sprintf02d minutes ++ ":" ++ Media.sprintf02d seconds

end UI

namespace Media

/-! ## The frame cache stays within its capacity -/

theorem cacheLen_insert_le (c : FrameCache) (k : Int) (v : Image) :
    cacheLen (c.insert k v) ≤ cacheLen c + 1 := by
  unfold cacheLen
  rw [AList.keys_insert, List.length_cons]
  exact Nat.succ_le_succ (List.length_erase_le k c.keys)

theorem cacheLen_evictOne (pick : Nat) (c : FrameCache) (h : 0 < cacheLen c) :
    cacheLen (evictOne pick c) + 1 = cacheLen c := by
  unfold cacheLen at h
  have hlt : pick % c.keys.length < c.keys.length := Nat.mod_lt _ h
  have hk : c.keys[pick % c.keys.length]? = some (c.keys[pick % c.keys.length]) :=
    List.getElem?_eq_getElem hlt
  have hmem : c.keys[pick % c.keys.length] ∈ c.keys := List.getElem_mem hlt
  unfold evictOne
  rw [hk]
  simp only [cacheLen, AList.keys_erase]
  rw [List.length_erase_of_mem hmem]
  omega

theorem cacheLen_cacheStore_le (maxCacheSize : Int) (pick : Nat) (c : FrameCache)
    (frameNum : Int) (frame : Image) (hpos : 0 < maxCacheSize)
    (hle : (cacheLen c : Int) ≤ maxCacheSize) :
    (cacheLen (cacheStore maxCacheSize pick c frameNum frame) : Int) ≤ maxCacheSize := by
  unfold cacheStore
  split
  · have h1 := cacheLen_evictOne pick c (by omega)
    have h2 := cacheLen_insert_le (evictOne pick c) frameNum frame
    omega
  · have h2 := cacheLen_insert_le c frameNum frame
    omega

theorem cacheBounded_store (p : InlineVideoPlayer) (h : CacheBounded p) (pick : Nat)
    (frameNum : Int) (frame : Image) :
    CacheBounded
      { p with frameCache := cacheStore p.maxCacheSize pick p.frameCache frameNum frame } := by
  obtain ⟨hmax, hlen⟩ := h
  have hb := cacheLen_cacheStore_le p.maxCacheSize pick p.frameCache frameNum frame
    (by omega) (by omega)
  refine ⟨hmax, ?_⟩
  simp only
  omega

theorem cacheLen_empty : cacheLen (∅ : FrameCache) = 0 := by
  simp [cacheLen]

theorem cacheBounded_getFrame (p : InlineVideoPlayer) (h : CacheBounded p)
    (frameNumber : Int) (ffmpeg : Option Image) (pick : Nat) :
    CacheBounded (p.getFrame frameNumber ffmpeg pick).state := by
  unfold InlineVideoPlayer.getFrame
  split
  · exact h
  · split
    · exact h
    · exact cacheBounded_store p h pick frameNumber _

theorem cacheBounded_preloadFramesStep (p : InlineVideoPlayer) (h : CacheBounded p)
    (ffmpeg : Option Image) (pick : Nat) :
    CacheBounded (p.preloadFramesStep ffmpeg pick) := by
  unfold InlineVideoPlayer.preloadFramesStep
  split
  · exact h
  · rename_i frameNum rest _
    have h1 : CacheBounded { p with preloadChan := rest } := h
    simp only
    split
    · exact h1
    · split
      · exact cacheBounded_store _ h1 pick frameNum _
      · exact h1

theorem cacheBounded_step (p : InlineVideoPlayer) (h : CacheBounded p) (a : Action) :
    CacheBounded (p.step a) := by
  cases a with
  | setCallbacks a b c d => exact h
  | loadVideo m =>
    exact ⟨h.1, by simp [InlineVideoPlayer.step, InlineVideoPlayer.LoadVideo, cacheLen_empty]⟩
  | play =>
    simp only [InlineVideoPlayer.step, InlineVideoPlayer.Play]
    split
    · exact h
    · split
      · exact h
      · exact h
  | pause => exact h
  | stop => exact h
  | close =>
    exact ⟨h.1, by simp [InlineVideoPlayer.step, InlineVideoPlayer.Close, cacheLen_empty]⟩
  | seek position =>
    simp only [InlineVideoPlayer.step, InlineVideoPlayer.Seek]
    split
    · exact h
    · split
      · exact h
      · exact h
  | tick loop stopReceived =>
    simp only [InlineVideoPlayer.step, InlineVideoPlayer.playFramesTick]
    split
    · split
      · exact h
      · split
        · exact h
        · exact h
    · exact h
  | frameTask frameNumber ffmpeg pick =>
    have hg := cacheBounded_getFrame p h frameNumber ffmpeg pick
    simp only [InlineVideoPlayer.step, InlineVideoPlayer.frameTask]
    split
    · exact hg
    · exact hg
  | store frameNumber frame pick => exact cacheBounded_store p h pick frameNumber frame
  | prefetch frameNumber => exact h
  | preload ffmpeg pick => exact cacheBounded_preloadFramesStep p h ffmpeg pick

theorem cacheBounded_run (actions : List Action) (p : InlineVideoPlayer)
    (h : CacheBounded p) : CacheBounded (p.run actions) := by
  induction actions generalizing p with
  | nil => exact h
  | cons a rest ih => exact ih (p.step a) (cacheBounded_step p h a)

/-- C1: whatever sequence of steps is applied to a new player (loads, the
methods, loop passes, frame goroutines, bare cache insertions by `getFrame` or
the prefetch worker, with any eviction choice), the capacity stays 50 and the
cache never holds more than 50 frames. -/
theorem frameCache_never_exceeds_maxCacheSize (actions : List Action) :
    (NewInlineVideoPlayer.run actions).maxCacheSize = 50 ∧
    cacheLen (NewInlineVideoPlayer.run actions).frameCache ≤ 50 :=
  cacheBounded_run actions NewInlineVideoPlayer ⟨rfl, by simp [NewInlineVideoPlayer, cacheLen_empty]⟩

/-! ## The frame of a position -/

theorem secondsTimesRate_nonneg (d : Int) (frameRate : Nat) (h : 0 ≤ d) :
    0 ≤ secondsTimesRate d frameRate := by
  unfold secondsTimesRate
  rw [if_pos h]
  exact Int.ofNat_nonneg _

theorem float64_round_zero (den : Nat) (scale : Int) :
    Float64.round 0 den scale = { mant := 0, exp := 0 } := by
  simp [Float64.round]

theorem secondsTimesRate_zero (frameRate : Nat) : secondsTimesRate 0 frameRate = 0 := by
  have h1 : durationSeconds 0 = { mant := 0, exp := 0 } := by decide
  simp [secondsTimesRate, secondsTimesRateNat, h1, Float64.mul, float64_round_zero,
    Float64.toNat]

/-! ## The rounding of float64 operations

Every operation of the model is the exact result times a factor between
`1 - 2^-53` and `1 + 2^-53`. -/

theorem log2Floor_le (fuel n : Nat) (hn : 0 < n) : 2 ^ log2Floor fuel n ≤ n := by
  induction fuel generalizing n with
  | zero => simpa [log2Floor] using hn
  | succ fuel ih =>
    unfold log2Floor
    by_cases h : n < 2
    · simp only [h, if_true, pow_zero]
      omega
    · simp only [h, if_false]
      have := ih (n / 2) (by omega)
      rw [pow_succ]
      omega

theorem lt_log2Floor (fuel n : Nat) (hn : n < 2 ^ fuel) : n < 2 ^ (log2Floor fuel n + 1) := by
  induction fuel generalizing n with
  | zero =>
    simp at hn
    simp [log2Floor, hn]
  | succ fuel ih =>
    unfold log2Floor
    by_cases h : n < 2
    · simp only [h, if_true]
      omega
    · simp only [h, if_false]
      rw [pow_succ] at hn
      have := ih (n / 2) (by omega)
      rw [pow_succ]
      omega

theorem scaled_quotient (num den : Nat) (e : Int) :
    ((scaledNum num e : Nat) : ℚ) / ((scaledDen den e : Nat) : ℚ)
      = (num : ℚ) / (den : ℚ) * (2 : ℚ) ^ (-e) := by
  unfold scaledNum scaledDen
  push_cast
  rcases le_or_lt 0 e with h | h
  · have h1 : (-e).toNat = 0 := by omega
    have h2 : ((e.toNat : Nat) : Int) = e := Int.toNat_of_nonneg h
    rw [h1, pow_zero, mul_one, zpow_neg]
    conv_rhs => rw [← h2, zpow_natCast]
    rw [div_mul_eq_div_div, div_eq_mul_inv ((num : ℚ) / (den : ℚ))]
  · have h1 : e.toNat = 0 := by omega
    have h2 : (((-e).toNat : Nat) : Int) = -e := Int.toNat_of_nonneg (by omega)
    rw [h1, pow_zero, mul_one]
    conv_rhs => rw [← h2, zpow_natCast]
    rw [mul_div_right_comm]

theorem ulpExp_lower (num den : Nat) (hnum : 0 < num) (hden : 0 < den) :
    (2 : ℚ) ^ 52 ≤ (num : ℚ) / (den : ℚ) * (2 : ℚ) ^ (-ulpExp num den) := by
  have hdenq : (0 : ℚ) < den := by exact_mod_cast hden
  unfold ulpExp
  split
  · rename_i htest
    rw [← scaled_quotient]
    have hD : (0 : ℚ) < ((scaledDen den ((log2Floor num num : Int)
        - (log2Floor den den : Int) - 52) : Nat) : ℚ) := by
      have : 0 < scaledDen den ((log2Floor num num : Int) - (log2Floor den den : Int) - 52) := by
        unfold scaledDen
        positivity
      exact_mod_cast this
    rw [le_div_iff₀ hD]
    exact_mod_cast htest
  · have hn := log2Floor_le num num hnum
    have hd := lt_log2Floor den den (Nat.lt_two_pow den)
    have hnq : ((2 : ℚ) ^ log2Floor num num) ≤ (num : ℚ) := by exact_mod_cast hn
    have hdq : (den : ℚ) ≤ (2 : ℚ) ^ (log2Floor den den + 1) := by exact_mod_cast hd.le
    have hexp : -((log2Floor num num : Int) - (log2Floor den den : Int) - 52 - 1)
        = (52 : Int) + ((log2Floor den den + 1 : Nat) : Int) - (log2Floor num num : Nat) := by
      push_cast
      ring
    rw [hexp, zpow_sub₀ (by norm_num), zpow_add₀ (by norm_num), zpow_natCast, zpow_natCast]
    have h52 : (2 : ℚ) ^ (52 : Int) = (2 : ℚ) ^ 52 := by norm_num
    rw [h52]
    have hpn : (0 : ℚ) < (2 : ℚ) ^ log2Floor num num := by positivity
    have hpd : (0 : ℚ) < (2 : ℚ) ^ (log2Floor den den + 1) := by positivity
    have hkey : (1 : ℚ) ≤ (num : ℚ) / (den : ℚ)
        * ((2 : ℚ) ^ (log2Floor den den + 1) / (2 : ℚ) ^ log2Floor num num) := by
      rw [div_mul_div_comm, le_div_iff₀ (by positivity), one_mul]
      calc (den : ℚ) * (2 : ℚ) ^ log2Floor num num
          ≤ (2 : ℚ) ^ (log2Floor den den + 1) * (num : ℚ) :=
            mul_le_mul hdq hnq hpn.le hpd.le
        _ = (num : ℚ) * (2 : ℚ) ^ (log2Floor den den + 1) := by ring
    calc (2 : ℚ) ^ 52 = (2 : ℚ) ^ 52 * 1 := by ring
      _ ≤ (2 : ℚ) ^ 52 * ((num : ℚ) / (den : ℚ)
            * ((2 : ℚ) ^ (log2Floor den den + 1) / (2 : ℚ) ^ log2Floor num num)) :=
          mul_le_mul_of_nonneg_left hkey (by positivity)
      _ = (num : ℚ) / (den : ℚ) * ((2 : ℚ) ^ 52 * (2 : ℚ) ^ (log2Floor den den + 1)
            / (2 : ℚ) ^ log2Floor num num) := by ring

theorem roundHalfEven_near (num den : Nat) (hden : 0 < den) :
    ((roundHalfEven num den : Nat) : ℚ) - (num : ℚ) / (den : ℚ) ≤ 1 / 2 ∧
    (num : ℚ) / (den : ℚ) - ((roundHalfEven num den : Nat) : ℚ) ≤ 1 / 2 := by
  have hdenq : (0 : ℚ) < den := by exact_mod_cast hden
  have hsplit : (num : ℚ) = (den : ℚ) * ((num / den : Nat) : ℚ) + ((num % den : Nat) : ℚ) := by
    exact_mod_cast (Nat.div_add_mod num den).symm
  have hmod : ((num % den : Nat) : ℚ) < (den : ℚ) := by exact_mod_cast Nat.mod_lt num hden
  have hmod0 : (0 : ℚ) ≤ ((num % den : Nat) : ℚ) := by positivity
  have hq : (num : ℚ) / (den : ℚ)
      = ((num / den : Nat) : ℚ) + ((num % den : Nat) : ℚ) / (den : ℚ) := by
    rw [hsplit]
    field_simp
    ring
  have hfrac0 : (0 : ℚ) ≤ ((num % den : Nat) : ℚ) / (den : ℚ) := by positivity
  have hfrac1 : ((num % den : Nat) : ℚ) / (den : ℚ) < 1 := by
    rw [div_lt_one hdenq]
    exact hmod
  unfold roundHalfEven
  split
  · rename_i h
    have hh : (2 : ℚ) * ((num % den : Nat) : ℚ) < (den : ℚ) := by exact_mod_cast h
    have : ((num % den : Nat) : ℚ) / (den : ℚ) ≤ 1 / 2 := by
      rw [div_le_iff₀ hdenq]
      linarith
    rw [hq]
    constructor <;> linarith
  · split
    · rename_i h
      have hh : (den : ℚ) < (2 : ℚ) * ((num % den : Nat) : ℚ) := by exact_mod_cast h
      have : (1 : ℚ) / 2 ≤ ((num % den : Nat) : ℚ) / (den : ℚ) := by
        rw [le_div_iff₀ hdenq]
        linarith
      rw [hq]
      push_cast
      constructor <;> linarith
    · rename_i h1 h2
      have heq : 2 * (num % den) = den := by omega
      have hh : (2 : ℚ) * ((num % den : Nat) : ℚ) = (den : ℚ) := by exact_mod_cast heq
      have : ((num % den : Nat) : ℚ) / (den : ℚ) = 1 / 2 := by
        rw [div_eq_iff (ne_of_gt hdenq)]
        linarith
      rw [hq]
      split
      · constructor <;> linarith
      · push_cast
        constructor <;> linarith

theorem float64_round_near (num den : Nat) (scale : Int) (hden : 0 < den) :
    (1 - 1 / 9007199254740992) * ((num : ℚ) / (den : ℚ) * (2 : ℚ) ^ scale)
      ≤ (Float64.round num den scale).toRat ∧
    (Float64.round num den scale).toRat
      ≤ (1 + 1 / 9007199254740992) * ((num : ℚ) / (den : ℚ) * (2 : ℚ) ^ scale) := by
  rcases Nat.eq_zero_or_pos num with hzero | hnum
  · subst hzero
    simp [float64_round_zero, Float64.toRat]
  · have hne : ¬ (num = 0 ∨ den = 0) := by omega
    have hD : 0 < scaledDen den (ulpExp num den) := by
      unfold scaledDen
      positivity
    have hnear := roundHalfEven_near (scaledNum num (ulpExp num den))
      (scaledDen den (ulpExp num den)) hD
    rw [scaled_quotient] at hnear
    have hlow := ulpExp_lower num den hnum hden
    have hw : (0 : ℚ) < (2 : ℚ) ^ (ulpExp num den + scale) := by positivity
    have hX : (num : ℚ) / (den : ℚ) * (2 : ℚ) ^ scale
        = (num : ℚ) / (den : ℚ) * (2 : ℚ) ^ (-ulpExp num den)
          * (2 : ℚ) ^ (ulpExp num den + scale) := by
      rw [mul_assoc, ← zpow_add₀ (by norm_num : (2 : ℚ) ≠ 0)]
      congr 2
      ring
    have hval : (Float64.round num den scale).toRat
        = ((roundHalfEven (scaledNum num (ulpExp num den))
            (scaledDen den (ulpExp num den)) : Nat) : ℚ)
          * (2 : ℚ) ^ (ulpExp num den + scale) := by
      simp only [Float64.round, hne, if_false, Float64.toRat]
    rw [hval, hX]
    generalize ((roundHalfEven (scaledNum num (ulpExp num den))
      (scaledDen den (ulpExp num den)) : Nat) : ℚ) = m at hnear ⊢
    generalize (num : ℚ) / (den : ℚ) * (2 : ℚ) ^ (-ulpExp num den) = y at hnear hlow ⊢
    generalize (2 : ℚ) ^ (ulpExp num den + scale) = w at hw ⊢
    have h52 : ((2 : ℚ) ^ 52) = 4503599627370496 := by norm_num
    rw [h52] at hlow
    have h1 : (m - y) * w ≤ 1 / 2 * w := mul_le_mul_of_nonneg_right hnear.1 hw.le
    have h2 : (y - m) * w ≤ 1 / 2 * w := mul_le_mul_of_nonneg_right hnear.2 hw.le
    have h3 : (4503599627370496 : ℚ) * w ≤ y * w := mul_le_mul_of_nonneg_right hlow hw.le
    constructor <;> nlinarith

theorem float64_ofNat_near (n : Nat) :
    (1 - 1 / 9007199254740992) * (n : ℚ) ≤ (Float64.ofNat n).toRat ∧
    (Float64.ofNat n).toRat ≤ (1 + 1 / 9007199254740992) * (n : ℚ) := by
  have h := float64_round_near n 1 0 Nat.one_pos
  simpa [Float64.ofNat] using h

theorem float64_mul_near (x y : Float64) :
    (1 - 1 / 9007199254740992) * (x.toRat * y.toRat) ≤ (Float64.mul x y).toRat ∧
    (Float64.mul x y).toRat ≤ (1 + 1 / 9007199254740992) * (x.toRat * y.toRat) := by
  have h := float64_round_near (x.mant * y.mant) 1 (x.exp + y.exp) Nat.one_pos
  have hX : ((x.mant * y.mant : Nat) : ℚ) / ((1 : Nat) : ℚ) * (2 : ℚ) ^ (x.exp + y.exp)
      = x.toRat * y.toRat := by
    unfold Float64.toRat
    rw [zpow_add₀ (by norm_num : (2 : ℚ) ≠ 0)]
    push_cast
    ring
  rw [hX] at h
  exact h

theorem float64_div_near (x y : Float64) (hy : 0 < y.mant) :
    (1 - 1 / 9007199254740992) * (x.toRat / y.toRat) ≤ (Float64.div x y).toRat ∧
    (Float64.div x y).toRat ≤ (1 + 1 / 9007199254740992) * (x.toRat / y.toRat) := by
  have h := float64_round_near x.mant y.mant (x.exp - y.exp) hy
  have hyq : (y.mant : ℚ) ≠ 0 := by
    have : (0 : ℚ) < y.mant := by exact_mod_cast hy
    exact ne_of_gt this
  have hX : (x.mant : ℚ) / (y.mant : ℚ) * (2 : ℚ) ^ (x.exp - y.exp) = x.toRat / y.toRat := by
    unfold Float64.toRat
    rw [zpow_sub₀ (by norm_num : (2 : ℚ) ≠ 0)]
    have hp : (2 : ℚ) ^ y.exp ≠ 0 := by positivity
    field_simp
  rw [hX] at h
  exact h

theorem float64_add_near (x y : Float64) :
    (1 - 1 / 9007199254740992) * (x.toRat + y.toRat) ≤ (Float64.add x y).toRat ∧
    (Float64.add x y).toRat ≤ (1 + 1 / 9007199254740992) * (x.toRat + y.toRat) := by
  have h := float64_round_near
    (x.mant * 2 ^ (x.exp - min x.exp y.exp).toNat + y.mant * 2 ^ (y.exp - min x.exp y.exp).toNat)
    1 (min x.exp y.exp) Nat.one_pos
  have hx : (((x.exp - min x.exp y.exp).toNat : Nat) : Int) = x.exp - min x.exp y.exp :=
    Int.toNat_of_nonneg (by omega)
  have hy : (((y.exp - min x.exp y.exp).toNat : Nat) : Int) = y.exp - min x.exp y.exp :=
    Int.toNat_of_nonneg (by omega)
  have hpx : (2 : ℚ) ^ (x.exp - min x.exp y.exp).toNat * (2 : ℚ) ^ (min x.exp y.exp)
      = (2 : ℚ) ^ x.exp := by
    rw [← zpow_natCast, hx, ← zpow_add₀ (by norm_num : (2 : ℚ) ≠ 0)]
    congr 1
    ring
  have hpy : (2 : ℚ) ^ (y.exp - min x.exp y.exp).toNat * (2 : ℚ) ^ (min x.exp y.exp)
      = (2 : ℚ) ^ y.exp := by
    rw [← zpow_natCast, hy, ← zpow_add₀ (by norm_num : (2 : ℚ) ≠ 0)]
    congr 1
    ring
  have hX : ((x.mant * 2 ^ (x.exp - min x.exp y.exp).toNat
        + y.mant * 2 ^ (y.exp - min x.exp y.exp).toNat : Nat) : ℚ) / ((1 : Nat) : ℚ)
        * (2 : ℚ) ^ (min x.exp y.exp)
      = x.toRat + y.toRat := by
    unfold Float64.toRat
    push_cast
    rw [div_one, add_mul, mul_assoc, mul_assoc, hpx, hpy]
  rw [hX] at h
  exact h

theorem float64_toNat_floor (x : Float64) :
    ((x.toNat : Nat) : ℚ) ≤ x.toRat ∧ x.toRat < ((x.toNat : Nat) : ℚ) + 1 := by
  unfold Float64.toNat Float64.toRat
  rcases le_or_lt 0 x.exp with h | h
  · have h2 : ((x.exp.toNat : Nat) : Int) = x.exp := Int.toNat_of_nonneg h
    rw [if_pos h]
    have : (2 : ℚ) ^ x.exp = (2 : ℚ) ^ x.exp.toNat := by
      conv_lhs => rw [← h2, zpow_natCast]
    rw [this]
    push_cast
    constructor <;> linarith
  · have h2 : (((-x.exp).toNat : Nat) : Int) = -x.exp := Int.toNat_of_nonneg (by omega)
    rw [if_neg (by omega)]
    have hpow : (2 : ℚ) ^ x.exp = ((2 : ℚ) ^ (-x.exp).toNat)⁻¹ := by
      rw [← zpow_natCast, h2, zpow_neg, inv_inv]
    rw [hpow]
    have hk : 0 < 2 ^ (-x.exp).toNat := by positivity
    have hkq : (0 : ℚ) < (2 : ℚ) ^ (-x.exp).toNat := by positivity
    have hle : x.mant / 2 ^ (-x.exp).toNat * 2 ^ (-x.exp).toNat ≤ x.mant :=
      Nat.div_mul_le_self _ _
    have hlt : x.mant < (x.mant / 2 ^ (-x.exp).toNat + 1) * 2 ^ (-x.exp).toNat := by
      have := Nat.lt_succ_self (x.mant / 2 ^ (-x.exp).toNat)
      exact (Nat.div_lt_iff_lt_mul hk).mp this
    have hleq : ((x.mant / 2 ^ (-x.exp).toNat : Nat) : ℚ) * (2 : ℚ) ^ (-x.exp).toNat
        ≤ (x.mant : ℚ) := by exact_mod_cast hle
    have hltq : (x.mant : ℚ)
        < (((x.mant / 2 ^ (-x.exp).toNat : Nat) : ℚ) + 1) * (2 : ℚ) ^ (-x.exp).toNat := by
      exact_mod_cast hlt
    constructor
    · rw [← div_eq_mul_inv, le_div_iff₀ hkq]
      exact hleq
    · rw [← div_eq_mul_inv, div_lt_iff₀ hkq]
      exact hltq

/-! ## How far the float64 frame expressions are from the exact ones -/

theorem float64_ofNat_second :
    Float64.ofNat 1000000000 = { mant := 8388608000000000, exp := -23 } := by
  decide

theorem float64_ofNat_rate :
    Float64.ofNat 15 = { mant := 8444249301319680, exp := -49 } := by
  decide

theorem float64_second_toRat : (Float64.ofNat 1000000000).toRat = 1000000000 := by
  rw [float64_ofNat_second]
  norm_num [Float64.toRat]

theorem float64_rate_toRat : (Float64.ofNat 15).toRat = 15 := by
  rw [float64_ofNat_rate]
  norm_num [Float64.toRat]

theorem float64_toRat_nonneg (x : Float64) : 0 ≤ x.toRat := by
  unfold Float64.toRat
  positivity

theorem secondsTimesRateNat_near (d : Nat) :
    (1 - 1 / 1125899906842624) * ((d : ℚ) / 1000000000 * 15) - 1
      < ((secondsTimesRateNat d 15 : Nat) : ℚ) ∧
    ((secondsTimesRateNat d 15 : Nat) : ℚ)
      ≤ (1 + 1 / 1125899906842624) * ((d : ℚ) / 1000000000 * 15) := by
  have hd : (d : ℚ) = ((d / 1000000000 : Nat) : ℚ) * 1000000000 + ((d % 1000000000 : Nat) : ℚ) := by
    have := Nat.div_add_mod d 1000000000
    have h2 : ((1000000000 * (d / 1000000000) + d % 1000000000 : Nat) : ℚ) = (d : ℚ) := by
      rw [this]
    push_cast at h2
    linarith
  have hs0 : (0 : ℚ) ≤ ((d / 1000000000 : Nat) : ℚ) := Nat.cast_nonneg _
  have hn0 : (0 : ℚ) ≤ ((d % 1000000000 : Nat) : ℚ) := Nat.cast_nonneg _
  obtain ⟨ha1, ha2⟩ := float64_ofNat_near (d / 1000000000)
  obtain ⟨hb1, hb2⟩ := float64_ofNat_near (d % 1000000000)
  have hcm : 0 < (Float64.ofNat 1000000000).mant := by
    rw [float64_ofNat_second]
    decide
  obtain ⟨hq1, hq2⟩ := float64_div_near (Float64.ofNat (d % 1000000000))
    (Float64.ofNat 1000000000) hcm
  rw [float64_second_toRat] at hq1 hq2
  obtain ⟨hS1, hS2⟩ := float64_add_near (Float64.ofNat (d / 1000000000))
    (Float64.div (Float64.ofNat (d % 1000000000)) (Float64.ofNat 1000000000))
  obtain ⟨hP1, hP2⟩ := float64_mul_near (durationSeconds d) (Float64.ofNat 15)
  rw [float64_rate_toRat] at hP1 hP2
  obtain ⟨hT1, hT2⟩ := float64_toNat_floor (Float64.mul (durationSeconds d) (Float64.ofNat 15))
  unfold secondsTimesRateNat
  unfold durationSeconds at hP1 hP2 hT1 hT2 ⊢
  generalize (Float64.ofNat (d / 1000000000)).toRat = a at *
  generalize (Float64.ofNat (d % 1000000000)).toRat = b at *
  generalize (Float64.div (Float64.ofNat (d % 1000000000)) (Float64.ofNat 1000000000)).toRat
    = q at *
  generalize (Float64.add (Float64.ofNat (d / 1000000000))
    (Float64.div (Float64.ofNat (d % 1000000000)) (Float64.ofNat 1000000000))).toRat = S at *
  generalize (Float64.mul (Float64.add (Float64.ofNat (d / 1000000000))
    (Float64.div (Float64.ofNat (d % 1000000000)) (Float64.ofNat 1000000000)))
    (Float64.ofNat 15)).toRat = P at *
  generalize ((Float64.mul (Float64.add (Float64.ofNat (d / 1000000000))
    (Float64.div (Float64.ofNat (d % 1000000000)) (Float64.ofNat 1000000000)))
    (Float64.ofNat 15)).toNat : ℚ) = T at *
  generalize ((d / 1000000000 : Nat) : ℚ) = s at *
  generalize ((d % 1000000000 : Nat) : ℚ) = n at *
  rw [hd]
  constructor
  · have h1 : (1 - 1 / 9007199254740992) * ((1 - 1 / 9007199254740992) * n / 1000000000) ≤ q := by
      have : (1 - 1 / 9007199254740992) * n / 1000000000 ≤ b / 1000000000 := by
        apply div_le_div_of_nonneg_right hb1 (by norm_num)
      have h3 : (1 - 1 / 9007199254740992 : ℚ) * ((1 - 1 / 9007199254740992) * n / 1000000000)
          ≤ (1 - 1 / 9007199254740992) * (b / 1000000000) :=
        mul_le_mul_of_nonneg_left this (by norm_num)
      linarith
    have h2 : (1 - 1 / 9007199254740992) * ((1 - 1 / 9007199254740992) * s
        + (1 - 1 / 9007199254740992) * ((1 - 1 / 9007199254740992) * n / 1000000000)) ≤ S := by
      have : (1 - 1 / 9007199254740992 : ℚ) * ((1 - 1 / 9007199254740992) * s
          + (1 - 1 / 9007199254740992) * ((1 - 1 / 9007199254740992) * n / 1000000000))
          ≤ (1 - 1 / 9007199254740992) * (a + q) :=
        mul_le_mul_of_nonneg_left (by linarith) (by norm_num)
      linarith
    have h3 : (1 - 1 / 9007199254740992 : ℚ) * ((1 - 1 / 9007199254740992) * ((1 - 1 / 9007199254740992) * s
        + (1 - 1 / 9007199254740992) * ((1 - 1 / 9007199254740992) * n / 1000000000)) * 15) ≤ P := by
      have : (1 - 1 / 9007199254740992 : ℚ) * ((1 - 1 / 9007199254740992) * ((1 - 1 / 9007199254740992) * s
          + (1 - 1 / 9007199254740992) * ((1 - 1 / 9007199254740992) * n / 1000000000)) * 15)
          ≤ (1 - 1 / 9007199254740992) * (S * 15) :=
        mul_le_mul_of_nonneg_left (by linarith) (by norm_num)
      linarith
    have h4 : (1 - 1 / 1125899906842624) * ((s * 1000000000 + n) / 1000000000 * 15)
        ≤ (1 - 1 / 9007199254740992 : ℚ) * ((1 - 1 / 9007199254740992) * ((1 - 1 / 9007199254740992) * s
        + (1 - 1 / 9007199254740992) * ((1 - 1 / 9007199254740992) * n / 1000000000)) * 15) := by
      have e : (1 - 1 / 9007199254740992 : ℚ) * ((1 - 1 / 9007199254740992) * ((1 - 1 / 9007199254740992) * s
        + (1 - 1 / 9007199254740992) * ((1 - 1 / 9007199254740992) * n / 1000000000)) * 15)
        - (1 - 1 / 1125899906842624) * ((s * 1000000000 + n) / 1000000000 * 15)
        = ((1 - 1 / 9007199254740992 : ℚ) ^ 3 - (1 - 1 / 1125899906842624)) * 15 * s
          + ((1 - 1 / 9007199254740992 : ℚ) ^ 4 - (1 - 1 / 1125899906842624)) * 15 / 1000000000 * n := by
        ring
      have c3 : (0 : ℚ) ≤ ((1 - 1 / 9007199254740992 : ℚ) ^ 3 - (1 - 1 / 1125899906842624)) * 15 := by
        norm_num
      have c4 : (0 : ℚ) ≤ ((1 - 1 / 9007199254740992 : ℚ) ^ 4 - (1 - 1 / 1125899906842624)) * 15 / 1000000000 := by
        norm_num
      have := mul_nonneg c3 hs0
      have := mul_nonneg c4 hn0
      linarith
    linarith
  · have h1 : q ≤ (1 + 1 / 9007199254740992) * ((1 + 1 / 9007199254740992) * n / 1000000000) := by
      have : b / 1000000000 ≤ (1 + 1 / 9007199254740992) * n / 1000000000 := by
        apply div_le_div_of_nonneg_right hb2 (by norm_num)
      have h3 : (1 + 1 / 9007199254740992 : ℚ) * (b / 1000000000)
          ≤ (1 + 1 / 9007199254740992) * ((1 + 1 / 9007199254740992) * n / 1000000000) :=
        mul_le_mul_of_nonneg_left this (by norm_num)
      linarith
    have h2 : S ≤ (1 + 1 / 9007199254740992) * ((1 + 1 / 9007199254740992) * s
        + (1 + 1 / 9007199254740992) * ((1 + 1 / 9007199254740992) * n / 1000000000)) := by
      have : (1 + 1 / 9007199254740992 : ℚ) * (a + q)
          ≤ (1 + 1 / 9007199254740992) * ((1 + 1 / 9007199254740992) * s
          + (1 + 1 / 9007199254740992) * ((1 + 1 / 9007199254740992) * n / 1000000000)) :=
        mul_le_mul_of_nonneg_left (by linarith) (by norm_num)
      linarith
    have h3 : P ≤ (1 + 1 / 9007199254740992 : ℚ) * ((1 + 1 / 9007199254740992) * ((1 + 1 / 9007199254740992) * s
        + (1 + 1 / 9007199254740992) * ((1 + 1 / 9007199254740992) * n / 1000000000)) * 15) := by
      have : (1 + 1 / 9007199254740992 : ℚ) * (S * 15)
          ≤ (1 + 1 / 9007199254740992 : ℚ) * ((1 + 1 / 9007199254740992) * ((1 + 1 / 9007199254740992) * s
          + (1 + 1 / 9007199254740992) * ((1 + 1 / 9007199254740992) * n / 1000000000)) * 15) :=
        mul_le_mul_of_nonneg_left (by linarith) (by norm_num)
      linarith
    have h4 : (1 + 1 / 9007199254740992 : ℚ) * ((1 + 1 / 9007199254740992) * ((1 + 1 / 9007199254740992) * s
        + (1 + 1 / 9007199254740992) * ((1 + 1 / 9007199254740992) * n / 1000000000)) * 15)
        ≤ (1 + 1 / 1125899906842624) * ((s * 1000000000 + n) / 1000000000 * 15) := by
      have e : (1 + 1 / 1125899906842624) * ((s * 1000000000 + n) / 1000000000 * 15)
        - (1 + 1 / 9007199254740992 : ℚ) * ((1 + 1 / 9007199254740992) * ((1 + 1 / 9007199254740992) * s
        + (1 + 1 / 9007199254740992) * ((1 + 1 / 9007199254740992) * n / 1000000000)) * 15)
        = ((1 + 1 / 1125899906842624) - (1 + 1 / 9007199254740992 : ℚ) ^ 3) * 15 * s
          + ((1 + 1 / 1125899906842624) - (1 + 1 / 9007199254740992 : ℚ) ^ 4) * 15 / 1000000000 * n := by
        ring
      have c3 : (0 : ℚ) ≤ ((1 + 1 / 1125899906842624) - (1 + 1 / 9007199254740992 : ℚ) ^ 3) * 15 := by
        norm_num
      have c4 : (0 : ℚ) ≤ ((1 + 1 / 1125899906842624) - (1 + 1 / 9007199254740992 : ℚ) ^ 4) * 15 / 1000000000 := by
        norm_num
      have := mul_nonneg c3 hs0
      have := mul_nonneg c4 hn0
      linarith
    linarith

theorem frameTimeNat_near (f : Nat) :
    (1 - 1 / 1125899906842624) * ((f : ℚ) / 15 * 1000000000) - 1
      < ((frameTimeNat f 15 : Nat) : ℚ) ∧
    ((frameTimeNat f 15 : Nat) : ℚ)
      ≤ (1 + 1 / 1125899906842624) * ((f : ℚ) / 15 * 1000000000) := by
  have hf0 : (0 : ℚ) ≤ (f : ℚ) := Nat.cast_nonneg _
  obtain ⟨ha1, ha2⟩ := float64_ofNat_near f
  have hrm : 0 < (Float64.ofNat 15).mant := by
    rw [float64_ofNat_rate]
    decide
  obtain ⟨hq1, hq2⟩ := float64_div_near (Float64.ofNat f) (Float64.ofNat 15) hrm
  rw [float64_rate_toRat] at hq1 hq2
  obtain ⟨hP1, hP2⟩ := float64_mul_near (Float64.div (Float64.ofNat f) (Float64.ofNat 15))
    (Float64.ofNat 1000000000)
  rw [float64_second_toRat] at hP1 hP2
  obtain ⟨hT1, hT2⟩ := float64_toNat_floor
    (Float64.mul (Float64.div (Float64.ofNat f) (Float64.ofNat 15)) (Float64.ofNat 1000000000))
  unfold frameTimeNat
  generalize (Float64.ofNat f).toRat = a at *
  generalize (Float64.div (Float64.ofNat f) (Float64.ofNat 15)).toRat = q at *
  generalize (Float64.mul (Float64.div (Float64.ofNat f) (Float64.ofNat 15))
    (Float64.ofNat 1000000000)).toRat = P at *
  generalize ((Float64.mul (Float64.div (Float64.ofNat f) (Float64.ofNat 15))
    (Float64.ofNat 1000000000)).toNat : ℚ) = T at *
  generalize (f : ℚ) = n at *
  constructor
  · have h1 : (1 - 1 / 9007199254740992) * ((1 - 1 / 9007199254740992) * n / 15) ≤ q := by
      have : (1 - 1 / 9007199254740992) * n / 15 ≤ a / 15 := by
        apply div_le_div_of_nonneg_right ha1 (by norm_num)
      have h3 : (1 - 1 / 9007199254740992 : ℚ) * ((1 - 1 / 9007199254740992) * n / 15)
          ≤ (1 - 1 / 9007199254740992) * (a / 15) :=
        mul_le_mul_of_nonneg_left this (by norm_num)
      linarith
    have h2 : (1 - 1 / 9007199254740992 : ℚ) * ((1 - 1 / 9007199254740992)
        * ((1 - 1 / 9007199254740992) * n / 15) * 1000000000) ≤ P := by
      have : (1 - 1 / 9007199254740992 : ℚ) * ((1 - 1 / 9007199254740992)
          * ((1 - 1 / 9007199254740992) * n / 15) * 1000000000)
          ≤ (1 - 1 / 9007199254740992) * (q * 1000000000) :=
        mul_le_mul_of_nonneg_left (by linarith) (by norm_num)
      linarith
    have h4 : (1 - 1 / 1125899906842624) * (n / 15 * 1000000000)
        ≤ (1 - 1 / 9007199254740992 : ℚ) * ((1 - 1 / 9007199254740992)
        * ((1 - 1 / 9007199254740992) * n / 15) * 1000000000) := by
      have e : (1 - 1 / 9007199254740992 : ℚ) * ((1 - 1 / 9007199254740992)
          * ((1 - 1 / 9007199254740992) * n / 15) * 1000000000)
          - (1 - 1 / 1125899906842624) * (n / 15 * 1000000000)
          = ((1 - 1 / 9007199254740992 : ℚ) ^ 3 - (1 - 1 / 1125899906842624))
            * 1000000000 / 15 * n := by
        ring
      have c3 : (0 : ℚ) ≤ ((1 - 1 / 9007199254740992 : ℚ) ^ 3 - (1 - 1 / 1125899906842624))
          * 1000000000 / 15 := by
        norm_num
      have := mul_nonneg c3 hf0
      linarith
    linarith
  · have h1 : q ≤ (1 + 1 / 9007199254740992) * ((1 + 1 / 9007199254740992) * n / 15) := by
      have : a / 15 ≤ (1 + 1 / 9007199254740992) * n / 15 := by
        apply div_le_div_of_nonneg_right ha2 (by norm_num)
      have h3 : (1 + 1 / 9007199254740992 : ℚ) * (a / 15)
          ≤ (1 + 1 / 9007199254740992) * ((1 + 1 / 9007199254740992) * n / 15) :=
        mul_le_mul_of_nonneg_left this (by norm_num)
      linarith
    have h2 : P ≤ (1 + 1 / 9007199254740992 : ℚ) * ((1 + 1 / 9007199254740992)
        * ((1 + 1 / 9007199254740992) * n / 15) * 1000000000) := by
      have : (1 + 1 / 9007199254740992 : ℚ) * (q * 1000000000)
          ≤ (1 + 1 / 9007199254740992 : ℚ) * ((1 + 1 / 9007199254740992)
          * ((1 + 1 / 9007199254740992) * n / 15) * 1000000000) :=
        mul_le_mul_of_nonneg_left (by linarith) (by norm_num)
      linarith
    have h4 : (1 + 1 / 9007199254740992 : ℚ) * ((1 + 1 / 9007199254740992)
        * ((1 + 1 / 9007199254740992) * n / 15) * 1000000000)
        ≤ (1 + 1 / 1125899906842624) * (n / 15 * 1000000000) := by
      have e : (1 + 1 / 1125899906842624) * (n / 15 * 1000000000)
          - (1 + 1 / 9007199254740992 : ℚ) * ((1 + 1 / 9007199254740992)
          * ((1 + 1 / 9007199254740992) * n / 15) * 1000000000)
          = ((1 + 1 / 1125899906842624) - (1 + 1 / 9007199254740992 : ℚ) ^ 3)
            * 1000000000 / 15 * n := by
        ring
      have c3 : (0 : ℚ) ≤ ((1 + 1 / 1125899906842624) - (1 + 1 / 9007199254740992 : ℚ) ^ 3)
          * 1000000000 / 15 := by
        norm_num
      have := mul_nonneg c3 hf0
      linarith
    linarith

/-- For a position that fits in an `int64`, the truncated `float64` product
is within one of the exact `⌊d / 10^9 * 15⌋`. -/
theorem secondsTimesRateNat_floor (d : Nat) (hd : d ≤ 9223372036854775807) :
    (secondsTimesRateNat d 15 : Int) ≤ ⌊(d : ℚ) / 1000000000 * 15⌋ + 1 ∧
    ⌊(d : ℚ) / 1000000000 * 15⌋ ≤ (secondsTimesRateNat d 15 : Int) + 1 := by
  obtain ⟨h1, h2⟩ := secondsTimesRateNat_near d
  have hdq : (d : ℚ) ≤ 9223372036854775807 := by exact_mod_cast hd
  have hd0 : (0 : ℚ) ≤ (d : ℚ) := Nat.cast_nonneg _
  have hfl := Int.floor_le ((d : ℚ) / 1000000000 * 15)
  have hfl2 := Int.lt_floor_add_one ((d : ℚ) / 1000000000 * 15)
  constructor
  · have : ((secondsTimesRateNat d 15 : Int) : ℚ) < ((⌊(d : ℚ) / 1000000000 * 15⌋ + 1 + 1 : Int) : ℚ) := by
      push_cast
      linarith
    have := Int.cast_lt.mp this
    omega
  · have : ((⌊(d : ℚ) / 1000000000 * 15⌋ : Int) : ℚ) < (((secondsTimesRateNat d 15 : Int) + 1 + 1 : Int) : ℚ) := by
      push_cast
      linarith
    have := Int.cast_lt.mp this
    omega

/-- The frame of the time of frame `f` is `f - 1` or `f`, as long as that time
fits in an `int64`. -/
theorem secondsTimesRateNat_frameTimeNat (f : Nat)
    (hf : frameTimeNat f 15 ≤ 9223372036854775807) :
    f ≤ secondsTimesRateNat (frameTimeNat f 15) 15 + 1 ∧
    secondsTimesRateNat (frameTimeNat f 15) 15 ≤ f := by
  obtain ⟨hT1, hT2⟩ := frameTimeNat_near f
  obtain ⟨hS1, hS2⟩ := secondsTimesRateNat_near (frameTimeNat f 15)
  have hfq : ((frameTimeNat f 15 : Nat) : ℚ) ≤ 9223372036854775807 := by exact_mod_cast hf
  have hf0 : (0 : ℚ) ≤ (f : ℚ) := Nat.cast_nonneg _
  have hT0 : (0 : ℚ) ≤ ((frameTimeNat f 15 : Nat) : ℚ) := Nat.cast_nonneg _
  constructor
  · have : (f : ℚ) < ((secondsTimesRateNat (frameTimeNat f 15) 15 + 1 + 1 : Nat) : ℚ) := by
      push_cast
      linarith
    have := Nat.cast_lt.mp this
    omega
  · have : ((secondsTimesRateNat (frameTimeNat f 15) 15 : Nat) : ℚ) < ((f + 1 : Nat) : ℚ) := by
      push_cast
      linarith
    have := Nat.cast_lt.mp this
    omega

/-- For a position of at most ten hours the truncated `float64` product does not
exceed the exact `⌊d / 10^9 * 15⌋`. -/
theorem secondsTimesRateNat_le_floor (d : Nat) (hd : d ≤ 36000000000000) :
    (secondsTimesRateNat d 15 : Int) ≤ ⌊(d : ℚ) / 1000000000 * 15⌋ := by
  obtain ⟨_, h2⟩ := secondsTimesRateNat_near d
  have hdq : (d : ℚ) ≤ 36000000000000 := by exact_mod_cast hd
  have hd0 : (0 : ℚ) ≤ (d : ℚ) := Nat.cast_nonneg _
  have hfl := Int.floor_le ((d : ℚ) / 1000000000 * 15)
  have hfl2 := Int.lt_floor_add_one ((d : ℚ) / 1000000000 * 15)
  have hk0 : 0 ≤ ⌊(d : ℚ) / 1000000000 * 15⌋ := Int.floor_nonneg.mpr (by positivity)
  -- the next whole frame boundary is at least one nanosecond away
  have hgap : (15 * (d : Int) + 1 : Int) ≤ (⌊(d : ℚ) / 1000000000 * 15⌋ + 1) * 1000000000 := by
    have : ((15 * (d : Int) : Int) : ℚ)
        < (((⌊(d : ℚ) / 1000000000 * 15⌋ + 1) * 1000000000 : Int) : ℚ) := by
      push_cast
      linarith
    have := Int.cast_lt.mp this
    omega
  have hgapq : (15 * (d : ℚ) + 1 : ℚ)
      ≤ ((⌊(d : ℚ) / 1000000000 * 15⌋ : ℚ) + 1) * 1000000000 := by
    exact_mod_cast hgap
  have : ((secondsTimesRateNat d 15 : Int) : ℚ)
      < ((⌊(d : ℚ) / 1000000000 * 15⌋ + 1 : Int) : ℚ) := by
    push_cast
    linarith
  have := Int.cast_lt.mp this
  omega

/-! ## Seek -/

theorem seek_of_loaded_in_range (p : InlineVideoPlayer) (position : Int)
    (hloaded : p.mediaFile ≠ none) (h0 : 0 ≤ position) (h1 : position ≤ p.duration) :
    p.Seek position =
      { state := { p with position := position,
                          currentFrame := secondsTimesRate position p.frameRate },
        completion := Completion.returned none,
        effects :=
          (if p.onProgressChanged then
            [Effect.progressChanged (progressPercent position p.duration)] else []) ++
          [Effect.spawnFrameTask (secondsTimesRate position p.frameRate)] } := by
  have hnn : ¬ secondsTimesRate position p.frameRate < 0 := by
    have := secondsTimesRate_nonneg position p.frameRate h0
    omega
  unfold InlineVideoPlayer.Seek
  cases hm : p.mediaFile with
  | none => exact absurd hm hloaded
  | some m =>
    have hrange : ¬ (position < 0 ∨ position > p.duration) := by omega
    simp only [hrange, if_false, hnn]

theorem seek_out_of_range_state (p : InlineVideoPlayer) (position : Int)
    (hloaded : p.mediaFile ≠ none) (hout : position < 0 ∨ position > p.duration) :
    (p.Seek position).state = p := by
  unfold InlineVideoPlayer.Seek
  cases hm : p.mediaFile with
  | none => exact absurd hm hloaded
  | some m => simp only [hout, if_true]

/-- C2: on a loaded player, `Seek(p)` with `0 ≤ p ≤ duration` returns nil and
`GetPosition()` then returns exactly `p`, whatever `isPlaying` and `isPaused` are. -/
theorem seek_then_getPosition (p : InlineVideoPlayer) (position : Int)
    (hloaded : p.mediaFile ≠ none) (h0 : 0 ≤ position) (h1 : position ≤ p.duration) :
    (p.Seek position).completion = Completion.returned none ∧
    (p.Seek position).state.GetPosition = position := by
  rw [seek_of_loaded_in_range p position hloaded h0 h1]
  exact ⟨rfl, rfl⟩

theorem seek_then_getPosition_witness :
    playingPlayer.mediaFile ≠ none ∧ (0 : Int) ≤ 2500000000 ∧
    (2500000000 : Int) ≤ playingPlayer.duration ∧
    (playingPlayer.Seek 2500000000).completion = Completion.returned none ∧
    (playingPlayer.Seek 2500000000).state.GetPosition = 2500000000 :=
  ⟨by decide, by decide, by decide,
    seek_then_getPosition playingPlayer 2500000000 (by decide) (by decide) (by decide)⟩

/-- C3: on a loaded player, `Seek(p)` with `p < 0` or `p > duration` returns the
error "position out of range", leaves every field of the player as it was, and
has no effect: no progress report, no frame goroutine. -/
theorem seek_out_of_range_rejected (p : InlineVideoPlayer) (position : Int)
    (hloaded : p.mediaFile ≠ none) (hout : position < 0 ∨ position > p.duration) :
    (p.Seek position).completion = Completion.returned (some PlayerError.positionOutOfRange) ∧
    (p.Seek position).state = p ∧
    (p.Seek position).effects = [] := by
  unfold InlineVideoPlayer.Seek
  cases hm : p.mediaFile with
  | none => exact absurd hm hloaded
  | some m => simp only [hout, if_true, and_self]

theorem seek_out_of_range_rejected_witness :
    playingPlayer.mediaFile ≠ none ∧
    ((10000000001 : Int) < 0 ∨ (10000000001 : Int) > playingPlayer.duration) ∧
    (playingPlayer.Seek 10000000001).completion =
      Completion.returned (some PlayerError.positionOutOfRange) ∧
    (playingPlayer.Seek 10000000001).state = playingPlayer ∧
    (playingPlayer.Seek 10000000001).effects = [] :=
  ⟨by decide, by decide,
    seek_out_of_range_rejected playingPlayer 10000000001 (by decide) (by decide)⟩

/-! ## The frame Seek selects -/

theorem secondsTimesRate_of_nonneg (d : Int) (frameRate : Nat) (h : 0 ≤ d) :
    secondsTimesRate d frameRate = (secondsTimesRateNat d.toNat frameRate : Int) := by
  unfold secondsTimesRate
  rw [if_pos h]
  rfl

/-- The frame of a position that fits in an `int64` is within one of the exact
`⌊d / 10^9 * 15⌋`. -/
theorem secondsTimesRate_near_floor (d : Int) (h0 : 0 ≤ d) (h1 : d ≤ 9223372036854775807) :
    ⌊(d : ℚ) / 1000000000 * 15⌋ - 1 ≤ secondsTimesRate d 15 ∧
    secondsTimesRate d 15 ≤ ⌊(d : ℚ) / 1000000000 * 15⌋ + 1 := by
  obtain ⟨n, rfl⟩ := Int.eq_ofNat_of_zero_le h0
  rw [secondsTimesRate_of_nonneg _ _ h0]
  have h := secondsTimesRateNat_floor n (by omega)
  simp only [Int.toNat_ofNat, Int.cast_natCast]
  omega

/-- The frame of a position of at most ten hours does not exceed the exact
`⌊d / 10^9 * 15⌋`. -/
theorem secondsTimesRate_le_floor (d : Int) (h0 : 0 ≤ d) (h1 : d ≤ 36000000000000) :
    secondsTimesRate d 15 ≤ ⌊(d : ℚ) / 1000000000 * 15⌋ := by
  obtain ⟨n, rfl⟩ := Int.eq_ofNat_of_zero_le h0
  rw [secondsTimesRate_of_nonneg _ _ h0]
  have h := secondsTimesRateNat_le_floor n (by omega)
  simp only [Int.toNat_ofNat, Int.cast_natCast]
  exact h

/-- C11, as stated, fails: on the ten-second sample `Seek(8.2 s)` sets the cursor
frame to 122, because the `float64` product `8.2 * 15` is just below 123, while
`floor(8.2 * 15)` is 123. -/
theorem seek_cursor_below_floor :
    loadedPlayer.mediaFile ≠ none ∧ loadedPlayer.frameRate = 15 ∧
    (0 : Int) ≤ 8200000000 ∧ (8200000000 : Int) ≤ loadedPlayer.duration ∧
    (loadedPlayer.Seek 8200000000).state.currentFrame = 122 ∧
    ⌊((8200000000 : Int) : ℚ) / 1000000000 * 15⌋ = 123 ∧
    (loadedPlayer.Seek 8200000000).state.currentFrame
      ≠ ⌊((8200000000 : Int) : ℚ) / 1000000000 * 15⌋ := by
  have hfloor : ⌊((8200000000 : Int) : ℚ) / 1000000000 * 15⌋ = 123 := by
    rw [Int.floor_eq_iff]
    norm_num
  have hcursor : (loadedPlayer.Seek 8200000000).state.currentFrame = 122 := by decide
  refine ⟨by decide, by decide, by decide, by decide, hcursor, hfloor, ?_⟩
  rw [hcursor, hfloor]
  decide

/-- C11, amended: on a loaded player (frame rate 15), `Seek(p)` with
`0 ≤ p ≤ duration`, `p` an `int64` number of nanoseconds, sets the cursor frame
to `int(float64(p.Seconds()) * 15.0)`, the `float64` product truncated toward
zero. That frame is within one of `floor(p.seconds * 15)`, for `p` of at most ten
hours it is the floor or one less, and it is not negative; `isPlaying` and
`isPaused` stay as they were. -/
theorem seek_sets_cursor_to_float64_frame (p : InlineVideoPlayer) (position : Int)
    (hloaded : p.mediaFile ≠ none) (hrate : p.frameRate = 15)
    (h0 : 0 ≤ position) (h1 : position ≤ p.duration)
    (hint64 : position ≤ 9223372036854775807) :
    (p.Seek position).state.currentFrame = secondsTimesRate position 15 ∧
    ⌊(position : ℚ) / 1000000000 * 15⌋ - 1 ≤ (p.Seek position).state.currentFrame ∧
    (p.Seek position).state.currentFrame ≤ ⌊(position : ℚ) / 1000000000 * 15⌋ + 1 ∧
    (position ≤ 36000000000000 →
      (p.Seek position).state.currentFrame ≤ ⌊(position : ℚ) / 1000000000 * 15⌋) ∧
    0 ≤ (p.Seek position).state.currentFrame ∧
    (p.Seek position).state.isPlaying = p.isPlaying ∧
    (p.Seek position).state.isPaused = p.isPaused := by
  rw [seek_of_loaded_in_range p position hloaded h0 h1]
  have hc : secondsTimesRate position p.frameRate = secondsTimesRate position 15 := by
    rw [hrate]
  obtain ⟨hlo, hhi⟩ := secondsTimesRate_near_floor position h0 hint64
  refine ⟨hc, ?_, ?_, ?_, ?_, rfl, rfl⟩
  · show _ ≤ secondsTimesRate position p.frameRate
    rw [hc]
    exact hlo
  · show secondsTimesRate position p.frameRate ≤ _
    rw [hc]
    exact hhi
  · intro hten
    show secondsTimesRate position p.frameRate ≤ _
    rw [hc]
    exact secondsTimesRate_le_floor position h0 hten
  · show 0 ≤ secondsTimesRate position p.frameRate
    exact secondsTimesRate_nonneg position p.frameRate h0

theorem seek_sets_cursor_to_float64_frame_witness :
    playingPlayer.mediaFile ≠ none ∧ playingPlayer.frameRate = 15 ∧
    (0 : Int) ≤ 8200000000 ∧ (8200000000 : Int) ≤ playingPlayer.duration ∧
    (8200000000 : Int) ≤ 9223372036854775807 ∧
    (playingPlayer.Seek 8200000000).state.currentFrame = 122 ∧
    (playingPlayer.Seek 8200000000).state.currentFrame = secondsTimesRate 8200000000 15 ∧
    ⌊((8200000000 : Int) : ℚ) / 1000000000 * 15⌋ - 1
      ≤ (playingPlayer.Seek 8200000000).state.currentFrame ∧
    (playingPlayer.Seek 8200000000).state.currentFrame
      ≤ ⌊((8200000000 : Int) : ℚ) / 1000000000 * 15⌋ ∧
    (playingPlayer.Seek 8200000000).state.isPlaying = playingPlayer.isPlaying :=
  have h := seek_sets_cursor_to_float64_frame playingPlayer 8200000000
    (by decide) (by decide) (by decide) (by decide) (by decide)
  ⟨by decide, by decide, by decide, by decide, by decide, by decide, h.1, h.2.1,
    h.2.2.2.1 (by decide), h.2.2.2.2.2.1⟩

/-! ## Position and cursor -/

/-- C4, as stated, fails: after `LoadVideo` and `Seek(100ms)` the position is
100 ms while the cursor is frame 1 (1/15 s); after `LoadVideo`, `Play` and one
loop pass the position is 0 while the cursor is frame 1. -/
theorem position_not_cursor_over_frameRate :
    (NewInlineVideoPlayer.run [Action.loadVideo sampleFile, Action.seek 100000000]).position
      = 100000000 ∧
    (NewInlineVideoPlayer.run [Action.loadVideo sampleFile, Action.seek 100000000]).currentFrame
      = 1 ∧
    ¬ PositionMatchesCursor
      (NewInlineVideoPlayer.run [Action.loadVideo sampleFile, Action.seek 100000000]) ∧
    ¬ PositionMatchesCursor
      (NewInlineVideoPlayer.run
        [Action.loadVideo sampleFile, Action.play, Action.tick { maxFrames := 150 } false]) := by
  unfold PositionMatchesCursor
  decide

theorem cursorIsFrameOfPosition_getFrame (p : InlineVideoPlayer)
    (h : CursorIsFrameOfPosition p) (frameNumber : Int) (ffmpeg : Option Image) (pick : Nat) :
    CursorIsFrameOfPosition (p.getFrame frameNumber ffmpeg pick).state := by
  unfold InlineVideoPlayer.getFrame
  split
  · exact h
  · split
    · exact h
    · exact h

theorem cursorIsFrameOfPosition_preloadFramesStep (p : InlineVideoPlayer)
    (h : CursorIsFrameOfPosition p) (ffmpeg : Option Image) (pick : Nat) :
    CursorIsFrameOfPosition (p.preloadFramesStep ffmpeg pick) := by
  unfold InlineVideoPlayer.preloadFramesStep
  split
  · exact h
  · simp only
    split
    · exact h
    · split
      · exact h
      · exact h

theorem cursorIsFrameOfPosition_step (p : InlineVideoPlayer)
    (h : CursorIsFrameOfPosition p) (a : Action) (ha : a.isTick = false) :
    CursorIsFrameOfPosition (p.step a) := by
  cases a with
  | setCallbacks a b c d => exact h
  | loadVideo m =>
    simp [InlineVideoPlayer.step, InlineVideoPlayer.LoadVideo, CursorIsFrameOfPosition,
      secondsTimesRate_zero]
  | play =>
    simp only [InlineVideoPlayer.step, InlineVideoPlayer.Play]
    split
    · exact h
    · split
      · exact h
      · exact h
  | pause => exact h
  | stop =>
    simp [InlineVideoPlayer.step, InlineVideoPlayer.Stop, CursorIsFrameOfPosition,
      secondsTimesRate_zero]
  | close =>
    simp [InlineVideoPlayer.step, InlineVideoPlayer.Close, InlineVideoPlayer.Stop,
      CursorIsFrameOfPosition, secondsTimesRate_zero]
  | seek position =>
    by_cases hm : p.mediaFile = none
    · simp only [InlineVideoPlayer.step, InlineVideoPlayer.Seek, hm]
      exact h
    · by_cases hr : position < 0 ∨ position > p.duration
      · rw [InlineVideoPlayer.step, (seek_out_of_range_state p position hm hr)]
        exact h
      · rw [InlineVideoPlayer.step,
          seek_of_loaded_in_range p position hm (by omega) (by omega)]
        rfl
  | tick loop stopReceived => simp [Action.isTick] at ha
  | frameTask frameNumber ffmpeg pick =>
    have hg := cursorIsFrameOfPosition_getFrame p h frameNumber ffmpeg pick
    simp only [InlineVideoPlayer.step, InlineVideoPlayer.frameTask]
    split
    · exact hg
    · exact hg
  | store frameNumber frame pick => exact h
  | prefetch frameNumber => exact h
  | preload ffmpeg pick => exact cursorIsFrameOfPosition_preloadFramesStep p h ffmpeg pick

theorem cursorIsFrameOfPosition_run (actions : List Action) (p : InlineVideoPlayer)
    (h : CursorIsFrameOfPosition p) (hno : ∀ a ∈ actions, a.isTick = false) :
    CursorIsFrameOfPosition (p.run actions) := by
  induction actions generalizing p with
  | nil => exact h
  | cons a rest ih =>
    exact ih (p.step a)
      (cursorIsFrameOfPosition_step p h a (hno a (List.mem_cons_self a rest)))
      (fun b hb => hno b (List.mem_cons_of_mem a hb))

/-- C4, amended: in every state reached from a new player by `LoadVideo`, `Play`,
`Pause`, `Stop`, `Seek` (and any step other than a loop pass), the cursor frame
is `int(float64(position.Seconds()) * frameRate)`, the `float64` product
truncated toward zero; with a source loaded (frame rate 15) and the position a
non-negative `int64` it is within one of `floor(position.seconds * 15)`. -/
theorem cursor_is_frame_of_position (actions : List Action)
    (hno : ∀ a ∈ actions, a.isTick = false) :
    (NewInlineVideoPlayer.run actions).currentFrame =
      secondsTimesRate (NewInlineVideoPlayer.run actions).position
        (NewInlineVideoPlayer.run actions).frameRate ∧
    ((NewInlineVideoPlayer.run actions).frameRate = 15 →
      0 ≤ (NewInlineVideoPlayer.run actions).position →
      (NewInlineVideoPlayer.run actions).position ≤ 9223372036854775807 →
      ⌊((NewInlineVideoPlayer.run actions).position : ℚ) / 1000000000 * 15⌋ - 1
        ≤ (NewInlineVideoPlayer.run actions).currentFrame ∧
      (NewInlineVideoPlayer.run actions).currentFrame
        ≤ ⌊((NewInlineVideoPlayer.run actions).position : ℚ) / 1000000000 * 15⌋ + 1) := by
  have h : CursorIsFrameOfPosition (NewInlineVideoPlayer.run actions) :=
    cursorIsFrameOfPosition_run actions NewInlineVideoPlayer
      (by unfold CursorIsFrameOfPosition; decide) hno
  unfold CursorIsFrameOfPosition at h
  refine ⟨h, ?_⟩
  intro hrate h0 h1
  rw [h, hrate]
  exact secondsTimesRate_near_floor _ h0 h1

theorem cursor_is_frame_of_position_witness :
    (∀ a ∈ [Action.loadVideo sampleFile, Action.play, Action.seek 8200000000, Action.pause],
      a.isTick = false) ∧
    (NewInlineVideoPlayer.run
      [Action.loadVideo sampleFile, Action.play, Action.seek 8200000000,
        Action.pause]).position = 8200000000 ∧
    (NewInlineVideoPlayer.run
      [Action.loadVideo sampleFile, Action.play, Action.seek 8200000000,
        Action.pause]).currentFrame = 122 ∧
    (NewInlineVideoPlayer.run
      [Action.loadVideo sampleFile, Action.play, Action.seek 8200000000,
        Action.pause]).currentFrame =
      secondsTimesRate
        (NewInlineVideoPlayer.run
          [Action.loadVideo sampleFile, Action.play, Action.seek 8200000000,
            Action.pause]).position
        (NewInlineVideoPlayer.run
          [Action.loadVideo sampleFile, Action.play, Action.seek 8200000000,
            Action.pause]).frameRate :=
  ⟨by simp [Action.isTick], by decide, by decide,
    (cursor_is_frame_of_position
      [Action.loadVideo sampleFile, Action.play, Action.seek 8200000000, Action.pause]
      (by simp [Action.isTick])).1⟩

/-! ## Stop, Play and Pause -/

/-- C5: from every state, `Stop()` leaves position 0, cursor frame 0,
`IsPlaying()` and `IsPaused()` false; it offers the stop signal and then calls
the play-state observer, when one is registered, with `false`; the source, the
duration, the frame rate, the cache and the prefetch queue are as before. -/
theorem stop_resets_playback (p : InlineVideoPlayer) :
    p.Stop.state.GetPosition = 0 ∧
    p.Stop.state.currentFrame = 0 ∧
    p.Stop.state.IsPlaying = false ∧
    p.Stop.state.IsPaused = false ∧
    p.Stop.completion = Completion.returned none ∧
    p.Stop.effects = Effect.stopSignal ::
      (if p.onPlayStateChanged then [Effect.playStateChanged false] else []) ∧
    p.Stop.state.mediaFile = p.mediaFile ∧
    p.Stop.state.duration = p.duration ∧
    p.Stop.state.frameRate = p.frameRate ∧
    p.Stop.state.frameCache = p.frameCache ∧
    p.Stop.state.maxCacheSize = p.maxCacheSize ∧
    p.Stop.state.preloadChan = p.preloadChan :=
  ⟨rfl, rfl, rfl, rfl, rfl, rfl, rfl, rfl, rfl, rfl, rfl, rfl⟩

theorem playFramesTick_mediaFile (p : InlineVideoPlayer) (loop : PlayLoop)
    (stopReceived : Bool) :
    (p.playFramesTick loop stopReceived).state.mediaFile = p.mediaFile := by
  unfold InlineVideoPlayer.playFramesTick
  split
  · split
    · rfl
    · split
      · rfl
      · rfl
  · rfl

theorem ticks_mediaFile (p : InlineVideoPlayer) (loop : PlayLoop) (n : Nat) :
    (p.ticks loop n).mediaFile = p.mediaFile := by
  induction n with
  | zero => rfl
  | succ n ih =>
    rw [InlineVideoPlayer.ticks, playFramesTick_mediaFile, ih]

theorem play_of_loaded (p : InlineVideoPlayer) (hloaded : p.mediaFile ≠ none) :
    p.Play =
      if p.isPlaying && !p.isPaused then
        { state := p, completion := Completion.returned none, effects := [] }
      else
        { state := { p with isPlaying := true, isPaused := false },
          completion := Completion.returned none,
          effects := Effect.spawnPlayFrames ::
            (if p.onPlayStateChanged then [Effect.playStateChanged true] else []) } := by
  unfold InlineVideoPlayer.Play
  cases hm : p.mediaFile with
  | none => exact absurd hm hloaded
  | some m => rfl

theorem play_isPlaying (p : InlineVideoPlayer) (hloaded : p.mediaFile ≠ none) :
    p.Play.state.IsPlaying = true ∧ p.Play.state.currentFrame = p.currentFrame ∧
    p.Play.state.position = p.position ∧ p.Play.state.mediaFile = p.mediaFile ∧
    p.Play.completion = Completion.returned none := by
  rw [play_of_loaded p hloaded]
  by_cases h : (p.isPlaying && !p.isPaused) = true
  · rw [if_pos h]
    exact ⟨h, rfl, rfl, rfl, rfl⟩
  · rw [if_neg h]
    exact ⟨rfl, rfl, rfl, rfl, rfl⟩

/-- C6: on a loaded player (in particular a Stopped one) `Play()` makes
`IsPlaying()` true; after any number of passes of a playback loop, `Pause()`
makes `IsPlaying()` false and `IsPaused()` true and keeps cursor frame and
position; the next `Play()` makes `IsPlaying()` true again and the cursor frame
is still the one at the pause. -/
theorem play_pause_play_keeps_cursor (p : InlineVideoPlayer) (hloaded : p.mediaFile ≠ none)
    (loop : PlayLoop) (n : Nat) :
    p.Play.state.IsPlaying = true ∧
    (p.Play.state.ticks loop n).Pause.state.IsPlaying = false ∧
    (p.Play.state.ticks loop n).Pause.state.IsPaused = true ∧
    (p.Play.state.ticks loop n).Pause.state.currentFrame
      = (p.Play.state.ticks loop n).currentFrame ∧
    (p.Play.state.ticks loop n).Pause.state.position
      = (p.Play.state.ticks loop n).position ∧
    (p.Play.state.ticks loop n).Pause.state.Play.state.IsPlaying = true ∧
    (p.Play.state.ticks loop n).Pause.state.Play.state.currentFrame
      = (p.Play.state.ticks loop n).currentFrame := by
  have h1 := play_isPlaying p hloaded
  have hq : (p.Play.state.ticks loop n).Pause.state.mediaFile ≠ none := by
    show (p.Play.state.ticks loop n).mediaFile ≠ none
    rw [ticks_mediaFile, h1.2.2.2.1]
    exact hloaded
  have h2 := play_isPlaying _ hq
  refine ⟨h1.1, ?_, rfl, rfl, rfl, h2.1, ?_⟩
  · simp [InlineVideoPlayer.IsPlaying, InlineVideoPlayer.Pause]
  · rw [h2.2.1]
    rfl

theorem play_pause_play_keeps_cursor_witness :
    loadedPlayer.mediaFile ≠ none ∧
    loadedPlayer.Play.state.IsPlaying = true ∧
    (loadedPlayer.Play.state.ticks { maxFrames := 150 } 7).currentFrame = 7 ∧
    (loadedPlayer.Play.state.ticks { maxFrames := 150 } 7).Pause.state.IsPlaying = false ∧
    (loadedPlayer.Play.state.ticks { maxFrames := 150 } 7).Pause.state.Play.state.IsPlaying
      = true ∧
    (loadedPlayer.Play.state.ticks { maxFrames := 150 } 7).Pause.state.Play.state.currentFrame
      = (loadedPlayer.Play.state.ticks { maxFrames := 150 } 7).currentFrame :=
  ⟨by decide,
    (play_pause_play_keeps_cursor loadedPlayer (by decide) { maxFrames := 150 } 7).1,
    by decide,
    (play_pause_play_keeps_cursor loadedPlayer (by decide) { maxFrames := 150 } 7).2.1,
    (play_pause_play_keeps_cursor loadedPlayer (by decide) { maxFrames := 150 } 7).2.2.2.2.2.1,
    (play_pause_play_keeps_cursor loadedPlayer (by decide) { maxFrames := 150 } 7).2.2.2.2.2.2⟩

/-! ## LoadVideo -/

/-- C7 at a failing input: the view's player is playing `sampleFile` when
`LoadVideo(secondFile)` is called. Cursor, position and cache are reset, but
`IsPlaying()` is still true, and the next pass of the loop started by the
earlier `Play()` goes on: it moves the cursor to 1 and starts the frame
goroutine for frame 0. -/
theorem loadVideo_leaves_playback_running :
    playingPlayer.IsPlaying = true ∧
    (playingPlayer.LoadVideo (some secondFile)).state.currentFrame = 0 ∧
    (playingPlayer.LoadVideo (some secondFile)).state.position = 0 ∧
    cacheLen (playingPlayer.LoadVideo (some secondFile)).state.frameCache = 0 ∧
    (playingPlayer.LoadVideo (some secondFile)).state.IsPlaying = true ∧
    ((playingPlayer.LoadVideo (some secondFile)).state.playFramesTick
      playingPlayer.playFramesStart false).running = true ∧
    ((playingPlayer.LoadVideo (some secondFile)).state.playFramesTick
      playingPlayer.playFramesStart false).state.currentFrame = 1 ∧
    Effect.spawnFrameTask 0 ∈
      ((playingPlayer.LoadVideo (some secondFile)).state.playFramesTick
        playingPlayer.playFramesStart false).effects := by
  decide

/-- C8, as stated, fails: `LoadVideo(nil)` on the loaded player does not return
an error; it panics on `mediaFile.Duration`, after `p.mediaFile` has been
overwritten with nil, so the player is not as it was. -/
theorem loadVideo_nil_does_not_return_error :
    (loadedPlayer.LoadVideo none).completion = Completion.panicked ∧
    (loadedPlayer.LoadVideo none).completion
      ≠ Completion.returned (some PlayerError.noVideoLoaded) ∧
    (loadedPlayer.LoadVideo none).state ≠ loadedPlayer := by
  decide

/-- C8, amended: `LoadVideo` validates nothing and has no error return. Whatever
it is given it never returns an error, and given a media file it returns nil
with that file installed as the source, its duration taken over, frame rate 15,
cursor and position 0 and the cache empty. -/
theorem loadVideo_never_returns_error (p : InlineVideoPlayer)
    (mediaFile : Option MediaFile) (m : MediaFile) :
    (∀ err : PlayerError,
      (p.LoadVideo mediaFile).completion ≠ Completion.returned (some err)) ∧
    (p.LoadVideo (some m)).completion = Completion.returned none ∧
    (p.LoadVideo (some m)).state.mediaFile = some m ∧
    (p.LoadVideo (some m)).state.duration = m.Duration ∧
    (p.LoadVideo (some m)).state.frameRate = 15 ∧
    (p.LoadVideo (some m)).state.currentFrame = 0 ∧
    (p.LoadVideo (some m)).state.position = 0 ∧
    cacheLen (p.LoadVideo (some m)).state.frameCache = 0 := by
  refine ⟨?_, rfl, rfl, rfl, rfl, rfl, rfl, cacheLen_empty⟩
  intro err
  cases mediaFile with
  | none => simp [InlineVideoPlayer.LoadVideo]
  | some f => simp [InlineVideoPlayer.LoadVideo]

/-! ## No source, and Play while playing -/

/-- C9: with no source loaded, `Play()` and `Seek(p)` for every `p` return the
error "no video loaded", leave every field of the player as it was and have no
effect: no loop or frame goroutine is started and no observer is called. -/
theorem play_seek_without_source (p : InlineVideoPlayer) (hnone : p.mediaFile = none)
    (position : Int) :
    p.Play.completion = Completion.returned (some PlayerError.noVideoLoaded) ∧
    p.Play.state = p ∧
    p.Play.effects = [] ∧
    (p.Seek position).completion = Completion.returned (some PlayerError.noVideoLoaded) ∧
    (p.Seek position).state = p ∧
    (p.Seek position).effects = [] := by
  simp only [InlineVideoPlayer.Play, InlineVideoPlayer.Seek, hnone, and_self]

theorem play_seek_without_source_witness :
    viewPlayer.mediaFile = none ∧
    viewPlayer.Play.completion = Completion.returned (some PlayerError.noVideoLoaded) ∧
    viewPlayer.Play.state = viewPlayer ∧
    viewPlayer.Play.effects = [] ∧
    (viewPlayer.Seek 0).completion = Completion.returned (some PlayerError.noVideoLoaded) ∧
    (viewPlayer.Seek 0).state = viewPlayer ∧
    (viewPlayer.Seek 0).effects = [] :=
  ⟨rfl, play_seek_without_source viewPlayer rfl 0⟩

/-- C10: on a loaded player that is already Playing, `Play()` returns nil,
leaves every field as it was and has no effect (no loop goroutine, no observer
call). On a loaded player that is not Playing (Stopped or Paused), `Play()` makes
`IsPlaying()` true and starts exactly one loop goroutine. So `Play()` starts a
loop exactly when it moves the player into Playing. -/
theorem play_spawns_loop_only_on_transition (p : InlineVideoPlayer)
    (hloaded : p.mediaFile ≠ none) :
    (p.IsPlaying = true →
      p.Play.completion = Completion.returned none ∧ p.Play.state = p ∧ p.Play.effects = []) ∧
    (p.IsPlaying = false →
      p.Play.completion = Completion.returned none ∧ p.Play.state.IsPlaying = true ∧
      p.Play.effects.count Effect.spawnPlayFrames = 1) ∧
    (Effect.spawnPlayFrames ∈ p.Play.effects ↔ p.IsPlaying = false) := by
  rw [play_of_loaded p hloaded]
  unfold InlineVideoPlayer.IsPlaying
  by_cases h : (p.isPlaying && !p.isPaused) = true
  · rw [if_pos h]
    simp [h]
  · rw [if_neg h]
    have hf : (p.isPlaying && !p.isPaused) = false := by simpa using h
    refine ⟨fun ht => absurd ht h, fun _ => ⟨rfl, rfl, ?_⟩, ?_⟩
    · cases p.onPlayStateChanged <;> simp
    · simp [hf]

theorem play_spawns_loop_only_on_transition_witness :
    playingPlayer.mediaFile ≠ none ∧ playingPlayer.IsPlaying = true ∧
    playingPlayer.Play.completion = Completion.returned none ∧
    playingPlayer.Play.state = playingPlayer ∧
    playingPlayer.Play.effects = [] ∧
    loadedPlayer.mediaFile ≠ none ∧ loadedPlayer.IsPlaying = false ∧
    loadedPlayer.Play.completion = Completion.returned none ∧
    loadedPlayer.Play.state.IsPlaying = true ∧
    loadedPlayer.Play.effects.count Effect.spawnPlayFrames = 1 :=
  have h1 := (play_spawns_loop_only_on_transition playingPlayer (by decide)).1 (by decide)
  have h2 := (play_spawns_loop_only_on_transition loadedPlayer (by decide)).2.1 (by decide)
  ⟨by decide, by decide, h1.1, h1.2.1, h1.2.2, by decide, by decide, h2⟩

/-! ## Eviction on a full cache -/

theorem storedWithOneEviction_cacheStore (c : FrameCache) (pick : Nat)
    (frameNum : Int) (frame : Image) (hfull : cacheLen c = 50)
    (hmiss : c.lookup frameNum = none) :
    StoredWithOneEviction c (cacheStore 50 pick c frameNum frame) frameNum frame := by
  have hnotin : frameNum ∉ c.keys :=
    fun h => AList.lookup_eq_none.mp hmiss (AList.mem_keys.mpr h)
  have hlen : c.keys.length = 50 := hfull
  have hlt : pick % c.keys.length < c.keys.length := Nat.mod_lt _ (by omega)
  have hk : c.keys[pick % c.keys.length]? = some (c.keys[pick % c.keys.length]) :=
    List.getElem?_eq_getElem hlt
  have hmem : c.keys[pick % c.keys.length] ∈ c.keys := List.getElem_mem hlt
  have hne : c.keys[pick % c.keys.length] ≠ frameNum := fun h => hnotin (h ▸ hmem)
  have hstore : cacheStore 50 pick c frameNum frame
      = (c.erase (c.keys[pick % c.keys.length])).insert frameNum frame := by
    unfold cacheStore evictOne
    rw [hk]
    have hge : (cacheLen c : Int) ≥ 50 := by omega
    simp only [hge, if_true]
  rw [hstore]
  refine ⟨?_, AList.lookup_insert _, c.keys[pick % c.keys.length], hmem, hne, ?_, ?_⟩
  · unfold cacheLen
    rw [AList.keys_insert, AList.keys_erase, List.length_cons,
      List.erase_of_not_mem (fun h => hnotin (List.mem_of_mem_erase h)),
      List.length_erase_of_mem hmem]
    omega
  · rw [AList.lookup_insert_ne hne, AList.lookup_erase]
  · intro k hk1 hk2
    rw [AList.lookup_insert_ne hk1, AList.lookup_erase_ne hk2]

/-- C12: with capacity 50 and exactly 50 frames cached, storing a frame index
that is not cached, by `getFrame` after a successful extraction or by the
prefetch worker, evicts exactly one cached entry first: the cache again holds
50 entries, maps the new index to the new image, has lost one old key, and maps
every other key as before, whichever key the map iteration picks. -/
theorem full_cache_store_evicts_one (p : InlineVideoPlayer) (frameNum : Int)
    (frame : Image) (pick : Nat) (rest : List Int)
    (hloaded : p.mediaFile ≠ none) (hmax : p.maxCacheSize = 50)
    (hfull : cacheLen p.frameCache = 50) (hmiss : p.frameCache.lookup frameNum = none) :
    StoredWithOneEviction p.frameCache
      (p.getFrame frameNum (some frame) pick).state.frameCache frameNum frame ∧
    (p.getFrame frameNum (some frame) pick).result = Except.ok frame ∧
    StoredWithOneEviction p.frameCache
      (InlineVideoPlayer.preloadFramesStep { p with preloadChan := frameNum :: rest }
        (some frame) pick).frameCache frameNum frame := by
  have hs := storedWithOneEviction_cacheStore p.frameCache pick frameNum frame hfull hmiss
  cases hm : p.mediaFile with
  | none => exact absurd hm hloaded
  | some m =>
    refine ⟨?_, ?_, ?_⟩
    · simp only [InlineVideoPlayer.getFrame, hmiss, InlineVideoPlayer.extractFrame, hm, hmax]
      exact hs
    · simp only [InlineVideoPlayer.getFrame, hmiss, InlineVideoPlayer.extractFrame, hm]
    · simp only [InlineVideoPlayer.preloadFramesStep, hmiss, InlineVideoPlayer.extractFrame,
        hm, hmax]
      exact hs

theorem full_cache_store_evicts_one_witness :
    fullPlayer.mediaFile ≠ none ∧ fullPlayer.maxCacheSize = 50 ∧
    cacheLen fullPlayer.frameCache = 50 ∧ fullPlayer.frameCache.lookup 50 = none ∧
    StoredWithOneEviction fullPlayer.frameCache
      (fullPlayer.getFrame 50 (some { id := 50 }) 7).state.frameCache 50 { id := 50 } ∧
    cacheLen (fullPlayer.getFrame 50 (some { id := 50 }) 7).state.frameCache = 50 ∧
    (fullPlayer.getFrame 50 (some { id := 50 }) 7).state.frameCache.lookup 42 = none :=
  ⟨by decide, by decide, by decide, by decide,
    (full_cache_store_evicts_one fullPlayer 50 { id := 50 } 7 []
      (by decide) (by decide) (by decide) (by decide)).1,
    by decide, by decide⟩

/-! ## Progress reports -/

/-- C13 at a failing input: the view's player has loaded a source of duration 0
and `Seek(0)` is accepted. The value handed to `onProgressChanged` is
`float64(0) / float64(0) * 100`, which is not a number, not 0; the sibling
`MediaPlayer.getProgress` returns 0 for the same source. -/
theorem seek_zero_duration_reports_no_number :
    zeroDurationPlayer.duration = 0 ∧
    zeroDurationPlayer.onProgressChanged = true ∧
    (zeroDurationPlayer.Seek 0).completion = Completion.returned none ∧
    reportedProgress (zeroDurationPlayer.Seek 0).effects = [Progress.notFinite] ∧
    zeroDurationMediaPlayer.getProgress = Progress.finite 0 := by
  refine ⟨by decide, by decide, by decide, by decide, ?_⟩
  rfl

theorem playFramesTick_of_playing (p : InlineVideoPlayer) (loop : PlayLoop)
    (hlt : p.currentFrame < loop.maxFrames)
    (hplaying : p.isPlaying = true) (hpaused : p.isPaused = false) :
    p.playFramesTick loop false =
      { state := { p with
          currentFrame := p.currentFrame + 1,
          position := Int.tdiv p.currentFrame (p.frameRate : Int) * 1000000000 },
        effects :=
          (if p.onProgressChanged then
            [Effect.progressChanged
              (progressPercent (Int.tdiv p.currentFrame (p.frameRate : Int) * 1000000000)
                p.duration)] else []) ++
          [Effect.spawnFrameTask p.currentFrame],
        running := true } := by
  unfold InlineVideoPlayer.playFramesTick
  simp [hlt, hplaying, hpaused]

theorem reportedProgress_playFramesTick (p : InlineVideoPlayer) (loop : PlayLoop)
    (hlt : p.currentFrame < loop.maxFrames)
    (hplaying : p.isPlaying = true) (hpaused : p.isPaused = false)
    (hobserver : p.onProgressChanged = true) :
    reportedProgress (p.playFramesTick loop false).effects
      = [progressPercent (p.playFramesTick loop false).state.position p.duration] := by
  rw [playFramesTick_of_playing p loop hlt hplaying hpaused]
  simp [hobserver, reportedProgress]

/-- C14 at a failing input: the view's player was playing the 10 s `sampleFile`
when the 4 s `secondFile` was loaded and the slider moved to its end. The loop
started by the earlier `Play()` (150 frames) is still running; its sixteenth
pass from there stores position 5 s and reports 5 s / 4 s * 100 = 125. -/
theorem progress_exceeds_100_after_reload :
    reloadedPlayer.duration = 4000000000 ∧
    reloadedPlayer.IsPlaying = true ∧
    playingPlayer.playFramesStart.maxFrames = 150 ∧
    ((reloadedPlayer.ticks playingPlayer.playFramesStart 15).playFramesTick
      playingPlayer.playFramesStart false).state.position = 5000000000 ∧
    reportedProgress
      ((reloadedPlayer.ticks playingPlayer.playFramesStart 15).playFramesTick
        playingPlayer.playFramesStart false).effects
      = [Progress.finite 125] ∧
    ¬ (Progress.finite 125).inRange := by
  have hpos : ((reloadedPlayer.ticks playingPlayer.playFramesStart 15).playFramesTick
      playingPlayer.playFramesStart false).state.position = 5000000000 := by decide
  have hdur : (reloadedPlayer.ticks playingPlayer.playFramesStart 15).duration
      = 4000000000 := by decide
  refine ⟨by decide, by decide, by decide, hpos, ?_, ?_⟩
  · rw [reportedProgress_playFramesTick _ _ (by decide) (by decide) (by decide) (by decide),
      hpos, hdur]
    simp only [progressPercent]
    norm_num
  · simp only [Progress.inRange]
    norm_num

/-! ## Close -/

/-- From every state, `Close()` returns nil and leaves the frame cache empty,
cursor frame and position 0, `IsPlaying()` and `IsPaused()` false; after the
effects of `Stop()` it offers the stop signal on `preloadStop`, once. -/
theorem close_resets_player (p : InlineVideoPlayer) :
    p.Close.completion = Completion.returned none ∧
    p.Close.state.frameCache = ∅ ∧
    cacheLen p.Close.state.frameCache = 0 ∧
    p.Close.state.currentFrame = 0 ∧
    p.Close.state.GetPosition = 0 ∧
    p.Close.state.IsPlaying = false ∧
    p.Close.state.IsPaused = false ∧
    p.Close.effects = p.Stop.effects ++ [Effect.preloadStopSignal] ∧
    p.Close.effects.count Effect.preloadStopSignal = 1 := by
  refine ⟨rfl, rfl, cacheLen_empty, rfl, rfl, rfl, rfl, rfl, ?_⟩
  simp only [InlineVideoPlayer.Close, InlineVideoPlayer.Stop]
  cases p.onPlayStateChanged <;> decide

theorem offerPreloadStop_running (workers : List WorkerPhase) :
    (offerPreloadStop workers).count WorkerPhase.running
      = workers.count WorkerPhase.running := by
  unfold offerPreloadStop
  rw [List.count_erase_of_ne (by decide)]

theorem offerPreloadStop_waiting (workers : List WorkerPhase) :
    (offerPreloadStop workers).count WorkerPhase.waiting
      = workers.count WorkerPhase.waiting - 1 := by
  unfold offerPreloadStop
  rw [List.count_erase_self]

/-- The send of `Close` ends at most one prefetch worker: every worker that is
not blocked in its `select` stays, and of those blocked there all but one stay. -/
theorem close_stops_at_most_one_worker (e : Engine) :
    ((e.step EngineEvent.close).workers).count WorkerPhase.running
      = e.workers.count WorkerPhase.running ∧
    ((e.step EngineEvent.close).workers).count WorkerPhase.waiting
      = e.workers.count WorkerPhase.waiting - 1 := by
  have hmem : Effect.preloadStopSignal ∈ e.player.Close.effects := by
    simp [InlineVideoPlayer.Close]
  simp only [Engine.step, hmem, if_true]
  exact ⟨offerPreloadStop_running e.workers, offerPreloadStop_waiting e.workers⟩

/-- C17 fails on the code. The view loads `sampleFile` and then `secondFile` into
its player, each `LoadVideo` starting a `preloadFrames` goroutine, and both
goroutines block in their `select`; `Close()` then resets the player as the claim
says, but its one non-blocking send ends one goroutine only and the other stays
blocked for good. When `Close()` is called before the goroutine of a single
`LoadVideo` has reached its `select`, the send is dropped and that goroutine
stays. -/
theorem close_leaves_prefetch_worker :
    (viewEngine.run
      [EngineEvent.loadVideo sampleFile, EngineEvent.workerWaits 0,
        EngineEvent.loadVideo secondFile, EngineEvent.workerWaits 1]).workers
      = [WorkerPhase.waiting, WorkerPhase.waiting] ∧
    (viewEngine.run
      [EngineEvent.loadVideo sampleFile, EngineEvent.workerWaits 0,
        EngineEvent.loadVideo secondFile, EngineEvent.workerWaits 1,
        EngineEvent.close]).workers = [WorkerPhase.waiting] ∧
    (viewEngine.run
      [EngineEvent.loadVideo sampleFile, EngineEvent.workerWaits 0,
        EngineEvent.loadVideo secondFile, EngineEvent.workerWaits 1,
        EngineEvent.close]).player.frameCache = ∅ ∧
    (viewEngine.run
      [EngineEvent.loadVideo sampleFile, EngineEvent.workerWaits 0,
        EngineEvent.loadVideo secondFile, EngineEvent.workerWaits 1,
        EngineEvent.close]).player.IsPlaying = false ∧
    (viewEngine.run [EngineEvent.loadVideo sampleFile]).workers = [WorkerPhase.running] ∧
    (viewEngine.run [EngineEvent.loadVideo sampleFile, EngineEvent.close]).workers
      = [WorkerPhase.running] ∧
    (viewEngine.run
      [EngineEvent.loadVideo sampleFile, EngineEvent.workerWaits 0,
        EngineEvent.close]).workers = [] := by
  refine ⟨by decide, by decide, rfl, by decide, by decide, by decide, by decide⟩

/-! ## Extraction failures -/

/-- C15, as stated, fails for the prefetch worker: with `onError` registered and
frame 4 at the head of the queue and not cached, an iteration of `preloadFrames`
whose extraction fails calls no observer at all. -/
theorem prefetch_failure_not_reported :
    queuedPlayer.onError = true ∧
    queuedPlayer.preloadChan = [4, 5, 6] ∧
    queuedPlayer.frameCache.lookup 4 = none ∧
    queuedPlayer.extractFrame 4 none = Except.error PlayerError.extractionFailed ∧
    (queuedPlayer.preloadFramesOutcome none 0).effects = [] ∧
    Effect.errorReported (PlayerError.failedToLoadFrame PlayerError.extractionFailed)
      ∉ (queuedPlayer.preloadFramesOutcome none 0).effects :=
  ⟨by decide, by decide, by decide, rfl, by decide, by decide⟩

theorem extractFrame_preloadChan (p : InlineVideoPlayer) (queue : List Int)
    (frameNumber : Int) (ffmpeg : Option Image) :
    InlineVideoPlayer.extractFrame { p with preloadChan := queue } frameNumber ffmpeg
      = p.extractFrame frameNumber ffmpeg := rfl

/-- C15, amended: an extraction failure on the playback/seek path (the frame
goroutine, on a cache miss) is reported to `onError` exactly once when that
observer is registered, delivers nothing to `onFrameReady` and leaves the whole
player as it was. An extraction failure in the prefetch worker is reported to no
observer; it only removes the request from the queue and leaves play state,
cursor frame, position and cache as they were. -/
theorem extraction_failure_handling (p : InlineVideoPlayer) (frameNumber : Int)
    (ffmpeg : Option Image) (pick : Nat) (rest : List Int) (err : PlayerError)
    (hmiss : p.frameCache.lookup frameNumber = none)
    (hfail : p.extractFrame frameNumber ffmpeg = Except.error err) :
    (p.frameTask frameNumber ffmpeg pick).effects =
      (if p.onError then [Effect.errorReported (PlayerError.failedToLoadFrame err)] else []) ∧
    (p.frameTask frameNumber ffmpeg pick).state = p ∧
    (InlineVideoPlayer.preloadFramesOutcome { p with preloadChan := frameNumber :: rest }
      ffmpeg pick).effects = [] ∧
    (InlineVideoPlayer.preloadFramesOutcome { p with preloadChan := frameNumber :: rest }
      ffmpeg pick).state = { p with preloadChan := rest } := by
  refine ⟨?_, ?_, rfl, ?_⟩
  · simp only [InlineVideoPlayer.frameTask, InlineVideoPlayer.getFrame, hmiss, hfail,
      List.nil_append]
  · simp only [InlineVideoPlayer.frameTask, InlineVideoPlayer.getFrame, hmiss, hfail]
  · simp only [InlineVideoPlayer.preloadFramesOutcome, InlineVideoPlayer.preloadFramesStep,
      hmiss, extractFrame_preloadChan, hfail]

theorem extraction_failure_handling_witness :
    loadedPlayer.frameCache.lookup 4 = none ∧
    loadedPlayer.extractFrame 4 none = Except.error PlayerError.extractionFailed ∧
    (loadedPlayer.frameTask 4 none 0).effects =
      [Effect.errorReported (PlayerError.failedToLoadFrame PlayerError.extractionFailed)] ∧
    (loadedPlayer.frameTask 4 none 0).state = loadedPlayer ∧
    (InlineVideoPlayer.preloadFramesOutcome { loadedPlayer with preloadChan := [4, 5, 6] }
      none 0).effects = [] :=
  have h := extraction_failure_handling loadedPlayer 4 none 0 [5, 6]
    PlayerError.extractionFailed (by decide) rfl
  ⟨by decide, rfl, h.1, h.2.1, h.2.2.1⟩

/-! ## The prefetch queue -/

theorem prefetchLoop_eq (frames queue : List Int) :
    prefetchLoop queue frames = queue ++ frames.take (preloadChanCap - queue.length) := by
  induction frames generalizing queue with
  | nil => simp [prefetchLoop]
  | cons x rest ih =>
    unfold prefetchLoop trySendPreload
    by_cases h : queue.length < preloadChanCap
    · simp only [h, if_true]
      rw [ih]
      have hsub : preloadChanCap - queue.length
          = (preloadChanCap - (queue ++ [x]).length) + 1 := by
        simp only [List.length_append, List.length_singleton]
        omega
      rw [hsub, List.take_succ_cons]
      simp
    · simp only [h, if_false]
      have hzero : preloadChanCap - queue.length = 0 := by omega
      simp [hzero]

theorem prefetchLoop_length_le (frames queue : List Int)
    (h : queue.length ≤ preloadChanCap) :
    (prefetchLoop queue frames).length ≤ preloadChanCap := by
  rw [prefetchLoop_eq, List.length_append, List.length_take]
  omega

theorem preloadFramesStep_preloadChan_le (p : InlineVideoPlayer) (ffmpeg : Option Image)
    (pick : Nat) :
    (p.preloadFramesStep ffmpeg pick).preloadChan.length ≤ p.preloadChan.length := by
  unfold InlineVideoPlayer.preloadFramesStep
  split
  · rename_i h
    simp [h]
  · rename_i frameNum rest h
    simp only [h]
    split
    · simp
    · split
      · simp
      · simp

theorem getFrame_preloadChan (p : InlineVideoPlayer) (frameNumber : Int)
    (ffmpeg : Option Image) (pick : Nat) :
    (p.getFrame frameNumber ffmpeg pick).state.preloadChan = p.preloadChan := by
  unfold InlineVideoPlayer.getFrame
  split
  · rfl
  · split
    · rfl
    · rfl

theorem preloadChan_step_le (p : InlineVideoPlayer)
    (h : p.preloadChan.length ≤ preloadChanCap) (a : Action) :
    (p.step a).preloadChan.length ≤ preloadChanCap := by
  cases a with
  | setCallbacks a b c d => exact h
  | loadVideo m => exact h
  | play =>
    simp only [InlineVideoPlayer.step, InlineVideoPlayer.Play]
    split
    · exact h
    · split
      · exact h
      · exact h
  | pause => exact h
  | stop => exact h
  | close => exact h
  | seek position =>
    simp only [InlineVideoPlayer.step, InlineVideoPlayer.Seek]
    split
    · exact h
    · split
      · exact h
      · exact h
  | tick loop stopReceived =>
    simp only [InlineVideoPlayer.step, InlineVideoPlayer.playFramesTick]
    split
    · split
      · exact h
      · split
        · exact h
        · exact h
    · exact h
  | frameTask frameNumber ffmpeg pick =>
    have hg := getFrame_preloadChan p frameNumber ffmpeg pick
    simp only [InlineVideoPlayer.step, InlineVideoPlayer.frameTask]
    split
    · simp only [hg]
      exact h
    · simp only [hg]
      exact h
  | store frameNumber frame pick => exact h
  | prefetch frameNumber => exact prefetchLoop_length_le _ _ h
  | preload ffmpeg pick =>
    exact Nat.le_trans (preloadFramesStep_preloadChan_le p ffmpeg pick) h

theorem preloadChan_run_le (actions : List Action) (p : InlineVideoPlayer)
    (h : p.preloadChan.length ≤ preloadChanCap) :
    (p.run actions).preloadChan.length ≤ preloadChanCap := by
  induction actions generalizing p with
  | nil => exact h
  | cons a rest ih => exact ih (p.step a) (preloadChan_step_le p h a)

/-- C16: whatever happens to a new player, `preloadChan` never holds more than
10 requests. A send to a queue of fewer than 10 appends the request at the
tail; a send to a queue of 10 is dropped, and the prefetch goroutine returns
at once with the queue as it was (the send is a `select` with `default`,
a total function here: there is nothing to wait for). -/
theorem preloadChan_never_exceeds_capacity (actions : List Action) (queue : List Int)
    (x : Int) (later : List Int) :
    (NewInlineVideoPlayer.run actions).preloadChan.length ≤ 10 ∧
    (queue.length < 10 → trySendPreload queue x = some (queue ++ [x])) ∧
    (queue.length = 10 →
      trySendPreload queue x = none ∧ prefetchLoop queue (x :: later) = queue) := by
  refine ⟨preloadChan_run_le actions NewInlineVideoPlayer (by decide), ?_, ?_⟩
  · intro h
    simp [trySendPreload, preloadChanCap, h]
  · intro h
    simp [prefetchLoop, trySendPreload, preloadChanCap, h]

theorem preloadChan_never_exceeds_capacity_witness :
    ([4, 5, 6] : List Int).length < 10 ∧
    trySendPreload [4, 5, 6] 7 = some [4, 5, 6, 7] ∧
    ([1, 2, 3, 4, 5, 6, 7, 8, 9, 10] : List Int).length = 10 ∧
    trySendPreload [1, 2, 3, 4, 5, 6, 7, 8, 9, 10] 11 = none ∧
    prefetchLoop [1, 2, 3, 4, 5, 6, 7, 8, 9, 10] [11, 12, 13]
      = [1, 2, 3, 4, 5, 6, 7, 8, 9, 10] :=
  ⟨by decide,
    (preloadChan_never_exceeds_capacity [] [4, 5, 6] 7 []).2.1 (by decide),
    by decide,
    (preloadChan_never_exceeds_capacity [] [1, 2, 3, 4, 5, 6, 7, 8, 9, 10] 11
      [12, 13]).2.2 (by decide)⟩

/-! ## Prefetch requests of getFrame -/

/-- C18, as stated, fails on a cache hit: with frame 3 cached, `getFrame(3)`
returns the cached image and starts no prefetch goroutine, so nothing is queued. -/
theorem getFrame_hit_requests_no_prefetch :
    cachedPlayer.frameCache.lookup 3 = some { id := 3 } ∧
    (cachedPlayer.getFrame 3 none 0).result = Except.ok { id := 3 } ∧
    (cachedPlayer.getFrame 3 none 0).effects = [] ∧
    Effect.spawnPrefetch 3 ∉ (cachedPlayer.getFrame 3 none 0).effects ∧
    (cachedPlayer.getFrame 3 none 0).state.preloadChan = cachedPlayer.preloadChan :=
  ⟨by decide, rfl, by decide, by decide, by decide⟩

/-- C18, amended: when `getFrame` resolves frame `i` by a cache miss followed by
a successful extraction, it starts one prefetch goroutine, which sends `i+1`,
`i+2`, `i+3` in that order to the queue, as many of them as fit below its
capacity of 10. When it resolves frame `i` by a cache hit it returns the cached
image, starts no prefetch goroutine and leaves the player as it was. -/
theorem getFrame_prefetches_on_miss_only (p q : InlineVideoPlayer) (i : Int)
    (frame cached : Image) (ffmpeg : Option Image) (pick : Nat)
    (hloaded : p.mediaFile ≠ none) (hmiss : p.frameCache.lookup i = none)
    (hhit : q.frameCache.lookup i = some cached) :
    (p.getFrame i (some frame) pick).result = Except.ok frame ∧
    (p.getFrame i (some frame) pick).effects = [Effect.spawnPrefetch i] ∧
    ((p.getFrame i (some frame) pick).state.requestPrefetch i).preloadChan =
      p.preloadChan ++ [i + 1, i + 2, i + 3].take (10 - p.preloadChan.length) ∧
    (q.getFrame i ffmpeg pick).result = Except.ok cached ∧
    (q.getFrame i ffmpeg pick).effects = [] ∧
    (q.getFrame i ffmpeg pick).state = q := by
  cases hm : p.mediaFile with
  | none => exact absurd hm hloaded
  | some m =>
    refine ⟨?_, ?_, ?_, ?_, ?_, ?_⟩
    · simp only [InlineVideoPlayer.getFrame, hmiss, InlineVideoPlayer.extractFrame, hm]
    · simp only [InlineVideoPlayer.getFrame, hmiss, InlineVideoPlayer.extractFrame, hm]
    · simp only [InlineVideoPlayer.requestPrefetch, getFrame_preloadChan, prefetchLoop_eq,
        preloadChanCap]
    · simp only [InlineVideoPlayer.getFrame, hhit]
    · simp only [InlineVideoPlayer.getFrame, hhit]
    · simp only [InlineVideoPlayer.getFrame, hhit]

theorem getFrame_prefetches_on_miss_only_witness :
    loadedPlayer.mediaFile ≠ none ∧
    loadedPlayer.frameCache.lookup 3 = none ∧
    cachedPlayer.frameCache.lookup 3 = some { id := 3 } ∧
    (loadedPlayer.getFrame 3 (some { id := 3 }) 0).effects = [Effect.spawnPrefetch 3] ∧
    ((loadedPlayer.getFrame 3 (some { id := 3 }) 0).state.requestPrefetch 3).preloadChan
      = [4, 5, 6] ∧
    (cachedPlayer.getFrame 3 none 0).effects = [] :=
  have h := getFrame_prefetches_on_miss_only loadedPlayer cachedPlayer 3
    { id := 3 } { id := 3 } none 0 (by decide) (by decide) (by decide)
  ⟨by decide, by decide, by decide, h.2.1, h.2.2.1, h.2.2.2.2.1⟩

/-! ## The playback loop -/

theorem dispatchedFrames_append (xs ys : List Effect) :
    dispatchedFrames (xs ++ ys) = dispatchedFrames xs ++ dispatchedFrames ys := by
  induction xs with
  | nil => rfl
  | cons e rest ih => cases e <;> simp [dispatchedFrames, ih]

theorem playFramesTick_at_end (p : InlineVideoPlayer) (loop : PlayLoop)
    (stopReceived : Bool) (hge : ¬ p.currentFrame < loop.maxFrames) :
    p.playFramesTick loop stopReceived =
      { state := { p with isPlaying := false },
        effects := if p.onPlayStateChanged then [Effect.playStateChanged false] else [],
        running := false } := by
  unfold InlineVideoPlayer.playFramesTick
  simp only [hge, if_false]

theorem playFramesLoop_runs_to_end (loop : PlayLoop) (k : Nat) :
    ∀ (p : InlineVideoPlayer) (fuel : Nat),
      p.isPlaying = true → p.isPaused = false →
      (loop.maxFrames - p.currentFrame).toNat = k → k < fuel →
      ∃ run : LoopRun, playFramesLoop loop fuel p = some run ∧
        run.ticks = k ∧
        dispatchedFrames run.effects
          = (List.range k).map (fun i : Nat => p.currentFrame + (i : Int)) ∧
        run.effects.count (Effect.playStateChanged false)
          = (if p.onPlayStateChanged then 1 else 0) ∧
        run.state.isPlaying = false ∧
        run.state.currentFrame = max p.currentFrame loop.maxFrames ∧
        (k = 0 → run.state.position = p.position) := by
  induction k with
  | zero =>
    intro p fuel _ _ hk hfuel
    obtain ⟨f, rfl⟩ : ∃ f, fuel = f + 1 := ⟨fuel - 1, by omega⟩
    have hge : ¬ p.currentFrame < loop.maxFrames := by omega
    refine ⟨_, by simp only [playFramesLoop, playFramesTick_at_end p loop false hge]; rfl,
      rfl, ?_, ?_, rfl, ?_, fun _ => rfl⟩
    · cases p.onPlayStateChanged <;> rfl
    · cases p.onPlayStateChanged <;> rfl
    · show p.currentFrame = max p.currentFrame loop.maxFrames
      omega
  | succ k ih =>
    intro p fuel hplaying hpaused hk hfuel
    obtain ⟨f, rfl⟩ : ∃ f, fuel = f + 1 := ⟨fuel - 1, by omega⟩
    have hlt : p.currentFrame < loop.maxFrames := by omega
    have htick := playFramesTick_of_playing p loop hlt hplaying hpaused
    obtain ⟨run, hrun, hticks, hframes, hcount, hstop, hcursor, _⟩ :=
      ih (p.playFramesTick loop false).state f
        (by rw [htick]; exact hplaying) (by rw [htick]; exact hpaused)
        (by rw [htick]; show (loop.maxFrames - (p.currentFrame + 1)).toNat = k; omega)
        (by omega)
    have hrunning : (p.playFramesTick loop false).running = true := by rw [htick]
    refine ⟨{ state := run.state,
              effects := (p.playFramesTick loop false).effects ++ run.effects,
              ticks := run.ticks + 1 },
      by simp only [playFramesLoop, hrunning, if_true, hrun], ?_, ?_, ?_, hstop,
      ?_, fun h => absurd h (Nat.succ_ne_zero k)⟩
    · show run.ticks + 1 = k + 1
      rw [hticks]
    · show dispatchedFrames ((p.playFramesTick loop false).effects ++ run.effects) = _
      rw [dispatchedFrames_append, hframes, htick, List.range_succ_eq_map, List.map_cons,
        List.map_map]
      have hhead : dispatchedFrames
          ((if p.onProgressChanged then
            [Effect.progressChanged
              (progressPercent (Int.tdiv p.currentFrame (p.frameRate : Int) * 1000000000)
                p.duration)] else []) ++
            [Effect.spawnFrameTask p.currentFrame]) = [p.currentFrame] := by
        cases p.onProgressChanged <;> rfl
      simp only [hhead, List.singleton_append, Nat.cast_zero, add_zero]
      congr 1
      apply List.map_congr_left
      intro i _
      simp only [Function.comp_apply, Nat.succ_eq_add_one, Nat.cast_add, Nat.cast_one]
      omega
    · show ((p.playFramesTick loop false).effects ++ run.effects).count
        (Effect.playStateChanged false) = _
      have hobserver : (p.playFramesTick loop false).state.onPlayStateChanged
          = p.onPlayStateChanged := by rw [htick]
      have hzero : (p.playFramesTick loop false).effects.count
          (Effect.playStateChanged false) = 0 := by
        rw [htick]
        cases p.onProgressChanged <;> simp
      rw [List.count_append, hcount, hzero, hobserver, Nat.zero_add]
    · rw [hcursor, htick]
      show max (p.currentFrame + 1) loop.maxFrames = max p.currentFrame loop.maxFrames
      omega

/-- C19, as stated, fails: on the 8.2-second source, played from cursor 0, the
loop ends after 122 ticks, because `maxFrames` is the `float64` product
`8.2 * 15` truncated, while `floor(8.2 * 15)` is 123. -/
theorem playFrames_stops_below_floor :
    shortPlayingPlayer.isPlaying = true ∧ shortPlayingPlayer.isPaused = false ∧
    shortPlayingPlayer.currentFrame = 0 ∧
    ⌊(shortPlayingPlayer.duration : ℚ) / 1000000000 * 15⌋ = 123 ∧
    ∃ run : LoopRun, shortPlayingPlayer.playFrames 124 = some run ∧ run.ticks = 122 ∧
      (dispatchedFrames run.effects).length = 122 := by
  have hfloor : ⌊(shortPlayingPlayer.duration : ℚ) / 1000000000 * 15⌋ = 123 := by
    have hd : shortPlayingPlayer.duration = 8200000000 := by decide
    rw [hd, Int.floor_eq_iff]
    norm_num
  obtain ⟨run, hrun, hticks, hframes, _⟩ :=
    playFramesLoop_runs_to_end shortPlayingPlayer.playFramesStart 122 shortPlayingPlayer 124
      (by decide) (by decide) (by decide) (by decide)
  refine ⟨by decide, by decide, by decide, hfloor, run, hrun, hticks, ?_⟩
  rw [hframes, List.length_map, List.length_range]

/-- C19, amended: a `playFrames` goroutine that runs alone on a Playing player
with cursor frame `c` and `N = int(duration.Seconds() * frameRate)`, the
`float64` product truncated toward zero, returns (given fuel for more than
`max(0, N - c)` passes) after exactly `max(0, N - c)` ticks. It starts one frame
goroutine per tick, for the frames `c, c+1, ..., N-1` in order (so at most `N` of
them when `c ≥ 0`), ends with `isPlaying = false` and calls the play-state
observer, when one is registered, with `false` once. Started with `c ≥ N` it
makes no tick and leaves cursor frame and position as they were. At frame rate
15 and for a duration that is a non-negative `int64`, `N` is within one of
`floor(duration.seconds * 15)`. -/
theorem playFrames_runs_to_float64_end (p : InlineVideoPlayer) (fuel : Nat)
    (hplaying : p.isPlaying = true) (hpaused : p.isPaused = false)
    (hfuel : (secondsTimesRate p.duration p.frameRate - p.currentFrame).toNat < fuel) :
    ∃ run : LoopRun, p.playFrames fuel = some run ∧
      run.ticks = (secondsTimesRate p.duration p.frameRate - p.currentFrame).toNat ∧
      dispatchedFrames run.effects
        = (List.range (secondsTimesRate p.duration p.frameRate - p.currentFrame).toNat).map
            (fun i : Nat => p.currentFrame + (i : Int)) ∧
      (dispatchedFrames run.effects).length = run.ticks ∧
      (0 ≤ p.currentFrame →
        (run.ticks : Int) ≤ max 0 (secondsTimesRate p.duration p.frameRate)) ∧
      run.effects.count (Effect.playStateChanged false)
        = (if p.onPlayStateChanged then 1 else 0) ∧
      run.state.isPlaying = false ∧
      run.state.currentFrame = max p.currentFrame (secondsTimesRate p.duration p.frameRate) ∧
      (secondsTimesRate p.duration p.frameRate ≤ p.currentFrame →
        run.ticks = 0 ∧ run.state.currentFrame = p.currentFrame ∧
        run.state.position = p.position) ∧
      (p.frameRate = 15 → 0 ≤ p.duration → p.duration ≤ 9223372036854775807 →
        ⌊(p.duration : ℚ) / 1000000000 * 15⌋ - 1 ≤ secondsTimesRate p.duration p.frameRate ∧
        secondsTimesRate p.duration p.frameRate ≤ ⌊(p.duration : ℚ) / 1000000000 * 15⌋ + 1) := by
  obtain ⟨run, hrun, hticks, hframes, hcount, hstop, hcursor, hpos⟩ :=
    playFramesLoop_runs_to_end p.playFramesStart _ p fuel hplaying hpaused rfl hfuel
  have hmax : p.playFramesStart.maxFrames = secondsTimesRate p.duration p.frameRate := rfl
  rw [hmax] at hticks hframes hcursor hpos
  refine ⟨run, hrun, hticks, hframes, ?_, ?_, hcount, hstop, hcursor, ?_, ?_⟩
  · rw [hframes, List.length_map, List.length_range, hticks]
  · intro hc
    rw [hticks]
    omega
  · intro hge
    have hzero : (secondsTimesRate p.duration p.frameRate - p.currentFrame).toNat = 0 := by
      omega
    refine ⟨by omega, by omega, hpos hzero⟩
  · intro hrate h0 h1
    rw [hrate]
    exact secondsTimesRate_near_floor p.duration h0 h1

theorem playFrames_runs_to_float64_end_witness :
    playingPlayer.isPlaying = true ∧ playingPlayer.isPaused = false ∧
    (secondsTimesRate playingPlayer.duration playingPlayer.frameRate
      - playingPlayer.currentFrame).toNat = 150 ∧
    ∃ run : LoopRun, playingPlayer.playFrames 151 = some run ∧
      run.ticks = (secondsTimesRate playingPlayer.duration playingPlayer.frameRate
        - playingPlayer.currentFrame).toNat ∧
      (dispatchedFrames run.effects).length = run.ticks ∧
      run.effects.count (Effect.playStateChanged false) = 1 ∧
      run.state.isPlaying = false := by
  obtain ⟨run, hrun, hticks, _, hlen, _, hcount, hstop, _⟩ :=
    playFrames_runs_to_float64_end playingPlayer 151 (by decide) (by decide) (by decide)
  exact ⟨by decide, by decide, by decide, run, hrun, hticks, hlen, hcount, hstop⟩

/-- C21, as stated, fails: the view's player plays, `Pause()` is called and
`Play()` is called again before the running loop has made its next pass. Two
loops are live; each of them makes a pass and goes on, and the cursor has
advanced by two. -/
theorem pause_then_play_leaves_two_loops :
    (loadedSession.run [SessionEvent.play, SessionEvent.pause, SessionEvent.play]).loops.length
      = 2 ∧
    (loadedSession.run [SessionEvent.play, SessionEvent.pause, SessionEvent.play,
      SessionEvent.tick 0, SessionEvent.tick 1]).loops.length = 2 ∧
    (loadedSession.run [SessionEvent.play, SessionEvent.pause, SessionEvent.play,
      SessionEvent.tick 0, SessionEvent.tick 1]).player.currentFrame = 2 := by
  decide

theorem play_spawns_only_when_not_playing (p : InlineVideoPlayer)
    (h : Effect.spawnPlayFrames ∈ p.Play.effects) : p.IsPlaying = false := by
  unfold InlineVideoPlayer.Play at h
  cases hm : p.mediaFile with
  | none => simp [hm] at h
  | some m =>
    simp only [hm] at h
    by_cases hp : (p.isPlaying && !p.isPaused) = true
    · simp [hp] at h
    · simpa [InlineVideoPlayer.IsPlaying] using hp

theorem session_step_loops_le (s : Session) (e : SessionEvent)
    (hone : s.loops.length ≤ 1)
    (hwait : e = SessionEvent.play → s.player.IsPlaying = true ∨ s.loops = []) :
    (s.step e).loops.length ≤ 1 := by
  cases e with
  | play =>
    simp only [Session.step]
    by_cases hspawn : Effect.spawnPlayFrames ∈ s.player.Play.effects
    · have hnot := play_spawns_only_when_not_playing s.player hspawn
      rcases hwait rfl with hplaying | hempty
      · rw [hnot] at hplaying
        exact absurd hplaying (by decide)
      · simp [hspawn, hempty]
    · simp [hspawn, hone]
  | pause => exact hone
  | tick index =>
    simp only [Session.step]
    split
    · exact hone
    · split
      · exact hone
      · exact Nat.le_trans (List.length_eraseIdx_le _ _) hone

theorem session_run_loops_le (events : List SessionEvent) (s : Session)
    (hone : s.loops.length ≤ 1) (hwait : s.playsWait events = true) :
    (s.run events).loops.length ≤ 1 := by
  induction events generalizing s with
  | nil => exact hone
  | cons e rest ih =>
    cases e with
    | play =>
      simp only [Session.playsWait, Bool.and_eq_true, Bool.or_eq_true,
        List.isEmpty_iff] at hwait
      exact ih (s.step SessionEvent.play)
        (session_step_loops_le s SessionEvent.play hone (fun _ => hwait.1)) hwait.2
    | pause =>
      exact ih (s.step SessionEvent.pause)
        (session_step_loops_le s SessionEvent.pause hone (fun h => by cases h)) hwait
    | tick index =>
      exact ih (s.step (SessionEvent.tick index))
        (session_step_loops_le s (SessionEvent.tick index) hone (fun h => by cases h)) hwait

/-- C21, amended: `Play()` resuming a loaded player from Paused starts a new
playback loop in every case, whether or not earlier loops are still live. In
every interleaving of `Play`, `Pause` and loop passes in which each `Play()`
finds the player already Playing or no loop live (a paused loop has made its
next pass, and so returned, before `Play()` is called again), at most one
playback loop is live. -/
theorem one_loop_when_play_waits (p q : InlineVideoPlayer) (loops : List PlayLoop)
    (events : List SessionEvent)
    (hloaded : p.mediaFile ≠ none) (hpaused : p.isPaused = true)
    (hwait : Session.playsWait { player := q, loops := [] } events = true) :
    (Session.step { player := p, loops := loops } SessionEvent.play).loops.length
      = loops.length + 1 ∧
    (Session.step { player := p, loops := loops } SessionEvent.play).player.IsPlaying = true ∧
    (Session.run { player := q, loops := [] } events).loops.length ≤ 1 := by
  refine ⟨?_, ?_, session_run_loops_le events _ (Nat.zero_le 1) hwait⟩
  · simp only [Session.step]
    rw [play_of_loaded p hloaded]
    simp [hpaused]
  · exact (play_isPlaying p hloaded).1

theorem one_loop_when_play_waits_witness :
    playingPlayer.Pause.state.mediaFile ≠ none ∧
    playingPlayer.Pause.state.isPaused = true ∧
    loadedSession.playsWait [SessionEvent.play, SessionEvent.tick 0, SessionEvent.pause,
      SessionEvent.tick 0, SessionEvent.play, SessionEvent.tick 0] = true ∧
    (Session.step { player := playingPlayer.Pause.state, loops := [] }
      SessionEvent.play).loops.length = 1 ∧
    (loadedSession.run [SessionEvent.play, SessionEvent.tick 0, SessionEvent.pause,
      SessionEvent.tick 0, SessionEvent.play, SessionEvent.tick 0]).loops.length ≤ 1 :=
  have h := one_loop_when_play_waits playingPlayer.Pause.state loadedPlayer []
    [SessionEvent.play, SessionEvent.tick 0, SessionEvent.pause, SessionEvent.tick 0,
      SessionEvent.play, SessionEvent.tick 0] (by decide) (by decide) (by decide)
  ⟨by decide, by decide, by decide, h.1, h.2.2⟩

/-! ## One iteration of the prefetch worker -/

theorem lookup_cacheStore_self (maxCacheSize : Int) (pick : Nat) (c : FrameCache)
    (frameNum : Int) (frame : Image) :
    (cacheStore maxCacheSize pick c frameNum frame).lookup frameNum = some frame := by
  unfold cacheStore
  exact AList.lookup_insert _

/-- C22: an iteration of `preloadFrames` takes the request `n` at the head of the
queue and leaves the rest of the queue in order. If `n` is cached the player is
otherwise untouched, whatever an extraction would have given (none is made); if
`n` is not cached and the extraction fails the player is otherwise untouched,
the failure is stored nowhere; if `n` is not cached and the extraction succeeds
the cache maps `n` to the extracted image afterwards. -/
theorem preloadFramesStep_cases (p : InlineVideoPlayer) (n : Int) (rest : List Int)
    (ffmpeg : Option Image) (pick : Nat) (cached frame : Image) (err : PlayerError) :
    (p.frameCache.lookup n = some cached →
      InlineVideoPlayer.preloadFramesStep { p with preloadChan := n :: rest } ffmpeg pick
        = { p with preloadChan := rest }) ∧
    (p.frameCache.lookup n = none → p.extractFrame n ffmpeg = Except.error err →
      InlineVideoPlayer.preloadFramesStep { p with preloadChan := n :: rest } ffmpeg pick
        = { p with preloadChan := rest }) ∧
    (p.frameCache.lookup n = none → p.extractFrame n ffmpeg = Except.ok frame →
      (InlineVideoPlayer.preloadFramesStep { p with preloadChan := n :: rest }
        ffmpeg pick).frameCache.lookup n = some frame ∧
      (InlineVideoPlayer.preloadFramesStep { p with preloadChan := n :: rest }
        ffmpeg pick).preloadChan = rest) := by
  refine ⟨?_, ?_, ?_⟩
  · intro hhit
    simp only [InlineVideoPlayer.preloadFramesStep, hhit]
  · intro hmiss hfail
    simp only [InlineVideoPlayer.preloadFramesStep, hmiss, extractFrame_preloadChan, hfail]
  · intro hmiss hok
    simp only [InlineVideoPlayer.preloadFramesStep, hmiss, extractFrame_preloadChan, hok,
      lookup_cacheStore_self, and_self]

theorem preloadFramesStep_cases_witness :
    cachedPlayer.frameCache.lookup 3 = some { id := 3 } ∧
    InlineVideoPlayer.preloadFramesStep { cachedPlayer with preloadChan := [3, 4, 5] }
      (some { id := 99 }) 0 = { cachedPlayer with preloadChan := [4, 5] } ∧
    cachedPlayer.frameCache.lookup 4 = none ∧
    cachedPlayer.extractFrame 4 none = Except.error PlayerError.extractionFailed ∧
    InlineVideoPlayer.preloadFramesStep { cachedPlayer with preloadChan := [4, 5] } none 0
      = { cachedPlayer with preloadChan := [5] } ∧
    cachedPlayer.extractFrame 4 (some { id := 4 }) = Except.ok { id := 4 } ∧
    (InlineVideoPlayer.preloadFramesStep { cachedPlayer with preloadChan := [4, 5] }
      (some { id := 4 }) 0).frameCache.lookup 4 = some { id := 4 } :=
  ⟨by decide,
    (preloadFramesStep_cases cachedPlayer 3 [4, 5] (some { id := 99 }) 0 { id := 3 }
      { id := 3 } PlayerError.extractionFailed).1 (by decide),
    by decide, rfl,
    (preloadFramesStep_cases cachedPlayer 4 [5] none 0 { id := 4 } { id := 4 }
      PlayerError.extractionFailed).2.1 (by decide) rfl,
    rfl,
    ((preloadFramesStep_cases cachedPlayer 4 [5] (some { id := 4 }) 0 { id := 4 } { id := 4 }
      PlayerError.extractionFailed).2.2 (by decide) rfl).1⟩

/-! ## Frame index to timestamp and back -/

/-- C23, as stated, fails: for frame 1 `extractFrame` computes the timestamp
66666666 ns (1/15 s truncated), and `Seek` to that timestamp sets the cursor to
frame 0, not 1. -/
theorem seek_frameTime_not_inverse :
    frameTime 1 15 = 66666666 ∧
    (0 : Int) ≤ frameTime 1 15 ∧ frameTime 1 15 ≤ loadedPlayer.duration ∧
    (loadedPlayer.Seek (frameTime 1 15)).completion = Completion.returned none ∧
    (loadedPlayer.Seek (frameTime 1 15)).state.currentFrame = 0 ∧
    (loadedPlayer.Seek (frameTime 1 15)).state.currentFrame ≠ 1 := by
  decide

theorem frameTime_of_nonneg (f : Int) (frameRate : Nat) (h : 0 ≤ f) :
    frameTime f frameRate = (frameTimeNat f.toNat frameRate : Int) := by
  unfold frameTime
  rw [if_pos h]
  rfl

/-- C23, amended: on a loaded player (frame rate 15) whose duration is an
`int64`, for every frame index `f ≥ 0` whose timestamp lies within the duration,
seeking to the timestamp that `extractFrame` computes for `f` succeeds and sets
the cursor frame to `f - 1` or to `f`. -/
theorem seek_frameTime_cursor_within_one (p : InlineVideoPlayer) (f : Int)
    (hloaded : p.mediaFile ≠ none) (hrate : p.frameRate = 15)
    (h0 : 0 ≤ f) (h1 : frameTime f 15 ≤ p.duration)
    (hint64 : p.duration ≤ 9223372036854775807) :
    (p.Seek (frameTime f 15)).completion = Completion.returned none ∧
    f - 1 ≤ (p.Seek (frameTime f 15)).state.currentFrame ∧
    (p.Seek (frameTime f 15)).state.currentFrame ≤ f := by
  obtain ⟨n, rfl⟩ := Int.eq_ofNat_of_zero_le h0
  have ht : frameTime (n : Int) 15 = (frameTimeNat n 15 : Int) := by
    rw [frameTime_of_nonneg _ _ h0]
    rfl
  have ht0 : 0 ≤ frameTime (n : Int) 15 := by
    rw [ht]
    exact Int.ofNat_nonneg _
  rw [seek_of_loaded_in_range p (frameTime (n : Int) 15) hloaded ht0 h1]
  have hc : secondsTimesRate (frameTime (n : Int) 15) p.frameRate
      = (secondsTimesRateNat (frameTimeNat n 15) 15 : Int) := by
    rw [hrate, secondsTimesRate_of_nonneg _ _ ht0, ht]
    rfl
  have hfit : frameTimeNat n 15 ≤ 9223372036854775807 := by
    rw [ht] at h1
    omega
  obtain ⟨hlo, hhi⟩ := secondsTimesRateNat_frameTimeNat n hfit
  refine ⟨rfl, ?_, ?_⟩
  · show (n : Int) - 1 ≤ secondsTimesRate (frameTime (n : Int) 15) p.frameRate
    rw [hc]
    omega
  · show secondsTimesRate (frameTime (n : Int) 15) p.frameRate ≤ (n : Int)
    rw [hc]
    omega

theorem seek_frameTime_cursor_within_one_witness :
    loadedPlayer.mediaFile ≠ none ∧ loadedPlayer.frameRate = 15 ∧ (0 : Int) ≤ 123 ∧
    frameTime 123 15 = 8199999999 ∧
    frameTime 123 15 ≤ loadedPlayer.duration ∧
    loadedPlayer.duration ≤ 9223372036854775807 ∧
    (loadedPlayer.Seek (frameTime 123 15)).state.currentFrame = 122 ∧
    (123 : Int) - 1 ≤ (loadedPlayer.Seek (frameTime 123 15)).state.currentFrame ∧
    (loadedPlayer.Seek (frameTime 123 15)).state.currentFrame ≤ 123 :=
  ⟨by decide, by decide, by decide, by decide, by decide, by decide, by decide,
    (seek_frameTime_cursor_within_one loadedPlayer 123 (by decide) (by decide) (by decide)
      (by decide) (by decide)).2⟩

/-! ## Pause -/

/-- C24: in every state, Stopped included, `Pause()` sets `isPaused` to true and
writes no other field; it calls the play-state observer, when one is
registered, with `false`. Afterwards `IsPaused()` is true and `IsPlaying()` is
false, and in no state at all are `IsPlaying()` and `IsPaused()` both true. -/
theorem pause_sets_only_isPaused (p q : InlineVideoPlayer) :
    p.Pause.state = { p with isPaused := true } ∧
    p.Pause.state.isPlaying = p.isPlaying ∧
    p.Pause.state.currentFrame = p.currentFrame ∧
    p.Pause.state.position = p.position ∧
    p.Pause.state.frameCache = p.frameCache ∧
    p.Pause.state.mediaFile = p.mediaFile ∧
    p.Pause.completion = Completion.returned none ∧
    p.Pause.effects = (if p.onPlayStateChanged then [Effect.playStateChanged false] else []) ∧
    p.Pause.state.IsPaused = true ∧
    p.Pause.state.IsPlaying = false ∧
    ¬ (q.IsPlaying = true ∧ q.IsPaused = true) := by
  refine ⟨rfl, rfl, rfl, rfl, rfl, rfl, rfl, rfl, rfl, ?_, ?_⟩
  · simp [InlineVideoPlayer.IsPlaying, InlineVideoPlayer.Pause]
  · simp [InlineVideoPlayer.IsPlaying, InlineVideoPlayer.IsPaused]

/-! ## Metadata from the ffprobe streams -/

theorem analyzeStream_video (atoi : String → Option Int) (m : Metadata) (stream : StreamInfo)
    (h : stream.CodecType = "video") :
    analyzeStream atoi m stream =
      { m with HasVideo := true, VideoCodec := stream.CodecName,
               Width := stream.Width, Height := stream.Height } := by
  simp only [analyzeStream, h, if_true]

theorem analyzeStream_other (atoi : String → Option Int) (m : Metadata) (stream : StreamInfo)
    (hv : stream.CodecType ≠ "video") (ha : stream.CodecType ≠ "audio") :
    analyzeStream atoi m stream = m := by
  simp only [analyzeStream, hv, ha, if_false]

theorem analyzeStream_audio_fields (atoi : String → Option Int) (m : Metadata)
    (stream : StreamInfo) (h : stream.CodecType = "audio") :
    (analyzeStream atoi m stream).HasAudio = true ∧
    (analyzeStream atoi m stream).AudioCodec = stream.CodecName ∧
    (analyzeStream atoi m stream).Channels = stream.Channels := by
  have hv : ¬ stream.CodecType = "video" := by
    rw [h]
    decide
  unfold analyzeStream
  rw [if_neg hv, if_pos h]
  by_cases hs : stream.SampleRate ≠ ""
  · simp only []
    rw [if_pos hs]
    cases atoi stream.SampleRate <;> exact ⟨rfl, rfl, rfl⟩
  · simp only []
    rw [if_neg hs]
    exact ⟨rfl, rfl, rfl⟩

theorem analyzeStream_keeps_video (atoi : String → Option Int) (m : Metadata)
    (stream : StreamInfo) (hv : stream.CodecType ≠ "video") :
    (analyzeStream atoi m stream).HasVideo = m.HasVideo ∧
    (analyzeStream atoi m stream).VideoCodec = m.VideoCodec ∧
    (analyzeStream atoi m stream).Width = m.Width ∧
    (analyzeStream atoi m stream).Height = m.Height := by
  unfold analyzeStream
  rw [if_neg hv]
  by_cases ha : stream.CodecType = "audio"
  · rw [if_pos ha]
    by_cases hs : stream.SampleRate ≠ ""
    · simp only []
      rw [if_pos hs]
      cases atoi stream.SampleRate <;> exact ⟨rfl, rfl, rfl, rfl⟩
    · simp only []
      rw [if_neg hs]
      exact ⟨rfl, rfl, rfl, rfl⟩
  · rw [if_neg ha]
    exact ⟨rfl, rfl, rfl, rfl⟩

theorem analyzeStream_keeps_audio (atoi : String → Option Int) (m : Metadata)
    (stream : StreamInfo) (ha : stream.CodecType ≠ "audio") :
    (analyzeStream atoi m stream).HasAudio = m.HasAudio ∧
    (analyzeStream atoi m stream).AudioCodec = m.AudioCodec ∧
    (analyzeStream atoi m stream).Channels = m.Channels := by
  unfold analyzeStream
  by_cases hv : stream.CodecType = "video"
  · rw [if_pos hv]
    exact ⟨rfl, rfl, rfl⟩
  · rw [if_neg hv, if_neg ha]
    exact ⟨rfl, rfl, rfl⟩

theorem analyzeStream_duration (atoi : String → Option Int) (m : Metadata)
    (stream : StreamInfo) :
    (analyzeStream atoi m stream).Duration = m.Duration := by
  unfold analyzeStream
  by_cases hv : stream.CodecType = "video"
  · rw [if_pos hv]
  · rw [if_neg hv]
    by_cases ha : stream.CodecType = "audio"
    · rw [if_pos ha]
      by_cases hs : stream.SampleRate ≠ ""
      · simp only []
        rw [if_pos hs]
        cases atoi stream.SampleRate <;> rfl
      · simp only []
        rw [if_neg hs]
    · rw [if_neg ha]

theorem analyzeStreams_duration (atoi : String → Option Int) (streams : List StreamInfo)
    (m : Metadata) : (analyzeStreams atoi m streams).Duration = m.Duration := by
  induction streams generalizing m with
  | nil => rfl
  | cons stream rest ih =>
    show (analyzeStreams atoi (analyzeStream atoi m stream) rest).Duration = _
    rw [ih, analyzeStream_duration]

theorem analyzeStreams_keeps_video (atoi : String → Option Int) (streams : List StreamInfo)
    (m : Metadata) (hv : ∀ t ∈ streams, t.CodecType ≠ "video") :
    (analyzeStreams atoi m streams).HasVideo = m.HasVideo ∧
    (analyzeStreams atoi m streams).VideoCodec = m.VideoCodec ∧
    (analyzeStreams atoi m streams).Width = m.Width ∧
    (analyzeStreams atoi m streams).Height = m.Height := by
  induction streams generalizing m with
  | nil => exact ⟨rfl, rfl, rfl, rfl⟩
  | cons stream rest ih =>
    have h1 := analyzeStream_keeps_video atoi m stream (hv stream (List.mem_cons_self _ _))
    have h2 := ih (analyzeStream atoi m stream) (fun t ht => hv t (List.mem_cons_of_mem _ ht))
    show (analyzeStreams atoi (analyzeStream atoi m stream) rest).HasVideo = _ ∧ _
    exact ⟨h2.1.trans h1.1, h2.2.1.trans h1.2.1, h2.2.2.1.trans h1.2.2.1,
      h2.2.2.2.trans h1.2.2.2⟩

theorem analyzeStreams_keeps_audio (atoi : String → Option Int) (streams : List StreamInfo)
    (m : Metadata) (ha : ∀ t ∈ streams, t.CodecType ≠ "audio") :
    (analyzeStreams atoi m streams).HasAudio = m.HasAudio ∧
    (analyzeStreams atoi m streams).AudioCodec = m.AudioCodec ∧
    (analyzeStreams atoi m streams).Channels = m.Channels := by
  induction streams generalizing m with
  | nil => exact ⟨rfl, rfl, rfl⟩
  | cons stream rest ih =>
    have h1 := analyzeStream_keeps_audio atoi m stream (ha stream (List.mem_cons_self _ _))
    have h2 := ih (analyzeStream atoi m stream) (fun t ht => ha t (List.mem_cons_of_mem _ ht))
    show (analyzeStreams atoi (analyzeStream atoi m stream) rest).HasAudio = _ ∧ _
    exact ⟨h2.1.trans h1.1, h2.2.1.trans h1.2.1, h2.2.2.trans h1.2.2⟩

theorem analyzeStreams_cons (atoi : String → Option Int) (m : Metadata)
    (stream : StreamInfo) (rest : List StreamInfo) :
    analyzeStreams atoi m (stream :: rest)
      = analyzeStreams atoi (analyzeStream atoi m stream) rest := rfl

theorem analyzeStreams_append (atoi : String → Option Int) (m : Metadata)
    (pre post : List StreamInfo) :
    analyzeStreams atoi m (pre ++ post) = analyzeStreams atoi (analyzeStreams atoi m pre) post := by
  unfold analyzeStreams
  exact List.foldl_append _ _ _ _

theorem analyzeStreams_hasVideo (atoi : String → Option Int) (streams : List StreamInfo)
    (m : Metadata) :
    (analyzeStreams atoi m streams).HasVideo = true ↔
      m.HasVideo = true ∨ ∃ t ∈ streams, t.CodecType = "video" := by
  induction streams generalizing m with
  | nil => simp [analyzeStreams]
  | cons stream rest ih =>
    show (analyzeStreams atoi (analyzeStream atoi m stream) rest).HasVideo = true ↔ _
    rw [ih]
    by_cases hv : stream.CodecType = "video"
    · rw [analyzeStream_video atoi m stream hv]
      simp [hv]
    · rw [(analyzeStream_keeps_video atoi m stream hv).1]
      simp [hv]

theorem analyzeStreams_hasAudio (atoi : String → Option Int) (streams : List StreamInfo)
    (m : Metadata) :
    (analyzeStreams atoi m streams).HasAudio = true ↔
      m.HasAudio = true ∨ ∃ t ∈ streams, t.CodecType = "audio" := by
  induction streams generalizing m with
  | nil => simp [analyzeStreams]
  | cons stream rest ih =>
    show (analyzeStreams atoi (analyzeStream atoi m stream) rest).HasAudio = true ↔ _
    rw [ih]
    by_cases ha : stream.CodecType = "audio"
    · rw [(analyzeStream_audio_fields atoi m stream ha).1]
      simp [ha]
    · rw [(analyzeStream_keeps_audio atoi m stream ha).1]
      simp [ha]

theorem parseFormatDuration_flags (parseFloat : String → Option ℚ) (format : FormatInfo) :
    (parseFormatDuration parseFloat Metadata.empty format).HasVideo = false ∧
    (parseFormatDuration parseFloat Metadata.empty format).HasAudio = false := by
  unfold parseFormatDuration
  split
  · split <;> exact ⟨rfl, rfl⟩
  · exact ⟨rfl, rfl⟩

theorem parseFormatDuration_missing (parseFloat : String → Option ℚ) (format : FormatInfo)
    (h : format.Duration = "" ∨ parseFloat format.Duration = none) :
    (parseFormatDuration parseFloat Metadata.empty format).Duration = 0 := by
  unfold parseFormatDuration
  rcases h with h | h
  · simp [h, Metadata.empty]
  · split
    · simp only [h]
      rfl
    · rfl

/-- C25: when the ffprobe output unmarshals, `parseFFprobeOutput` returns
metadata and no error, with `HasVideo` true exactly when some stream has
`codec_type` "video" and `HasAudio` true exactly when some stream has
`codec_type` "audio"; `VideoCodec`, `Width` and `Height` are those of the last
video stream, `AudioCodec` and `Channels` those of the last audio stream; a
stream of any other type leaves the metadata as it is; and a missing or
unparsable format duration gives `Duration` 0. -/
theorem parseFFprobeOutput_streams (unmarshal : String → Option FFprobeOutput)
    (parseFloat : String → Option ℚ) (atoi : String → Option Int) (output : String)
    (probe : FFprobeOutput) (hjson : unmarshal output = some probe) :
    ∃ md : Metadata, parseFFprobeOutput unmarshal parseFloat atoi output = Except.ok md ∧
      (md.HasVideo = true ↔ ∃ t ∈ probe.Streams, t.CodecType = "video") ∧
      (md.HasAudio = true ↔ ∃ t ∈ probe.Streams, t.CodecType = "audio") ∧
      (∀ (pre post : List StreamInfo) (stream : StreamInfo),
        probe.Streams = pre ++ stream :: post → stream.CodecType = "video" →
        (∀ t ∈ post, t.CodecType ≠ "video") →
        md.VideoCodec = stream.CodecName ∧ md.Width = stream.Width ∧
        md.Height = stream.Height) ∧
      (∀ (pre post : List StreamInfo) (stream : StreamInfo),
        probe.Streams = pre ++ stream :: post → stream.CodecType = "audio" →
        (∀ t ∈ post, t.CodecType ≠ "audio") →
        md.AudioCodec = stream.CodecName ∧ md.Channels = stream.Channels) ∧
      (∀ (m : Metadata) (stream : StreamInfo),
        stream.CodecType ≠ "video" → stream.CodecType ≠ "audio" →
        analyzeStream atoi m stream = m) ∧
      ((probe.Format.Duration = "" ∨ parseFloat probe.Format.Duration = none) →
        md.Duration = 0) := by
  refine ⟨analyzeStreams atoi (parseFormatDuration parseFloat Metadata.empty probe.Format)
    probe.Streams, by simp only [parseFFprobeOutput, hjson], ?_, ?_, ?_, ?_, ?_, ?_⟩
  · rw [analyzeStreams_hasVideo, (parseFormatDuration_flags parseFloat probe.Format).1]
    simp
  · rw [analyzeStreams_hasAudio, (parseFormatDuration_flags parseFloat probe.Format).2]
    simp
  · intro pre post stream hsplit hvideo hlast
    rw [hsplit, analyzeStreams_append]
    have hk := analyzeStreams_keeps_video atoi post
      (analyzeStream atoi
        (analyzeStreams atoi (parseFormatDuration parseFloat Metadata.empty probe.Format) pre)
        stream) hlast
    rw [analyzeStreams_cons, hk.2.1, hk.2.2.1, hk.2.2.2,
      analyzeStream_video atoi _ stream hvideo]
    exact ⟨rfl, rfl, rfl⟩
  · intro pre post stream hsplit haudio hlast
    rw [hsplit, analyzeStreams_append]
    have hk := analyzeStreams_keeps_audio atoi post
      (analyzeStream atoi
        (analyzeStreams atoi (parseFormatDuration parseFloat Metadata.empty probe.Format) pre)
        stream) hlast
    have hs := analyzeStream_audio_fields atoi
      (analyzeStreams atoi (parseFormatDuration parseFloat Metadata.empty probe.Format) pre)
      stream haudio
    rw [analyzeStreams_cons, hk.2.1, hk.2.2]
    exact ⟨hs.2.1, hs.2.2⟩
  · intro m stream hv ha
    exact analyzeStream_other atoi m stream hv ha
  · intro hmissing
    rw [analyzeStreams_duration]
    exact parseFormatDuration_missing parseFloat probe.Format hmissing

theorem parseFFprobeOutput_streams_witness :
    (fun _ : String => some sampleProbe) "{}" = some sampleProbe ∧
    ∃ md : Metadata,
      parseFFprobeOutput (fun _ => some sampleProbe) (fun _ => none) (fun _ => none) "{}"
        = Except.ok md ∧
      (md.HasVideo = true ↔ ∃ t ∈ sampleProbe.Streams, t.CodecType = "video") ∧
      (md.HasAudio = true ↔ ∃ t ∈ sampleProbe.Streams, t.CodecType = "audio") ∧
      md.VideoCodec = "h264" ∧ md.Width = 640 ∧ md.Height = 360 ∧
      md.AudioCodec = "aac" ∧ md.Channels = 2 ∧ md.Duration = 0 := by
  obtain ⟨md, hmd, hvideo, haudio, hlastVideo, hlastAudio, _, hduration⟩ :=
    parseFFprobeOutput_streams (fun _ => some sampleProbe) (fun _ => none) (fun _ => none)
      "{}" sampleProbe rfl
  have hv := hlastVideo [sampleProbe.Streams.get ⟨0, by decide⟩]
    [sampleProbe.Streams.get ⟨2, by decide⟩, sampleProbe.Streams.get ⟨3, by decide⟩]
    (sampleProbe.Streams.get ⟨1, by decide⟩) rfl rfl (by decide)
  have ha := hlastAudio
    [sampleProbe.Streams.get ⟨0, by decide⟩, sampleProbe.Streams.get ⟨1, by decide⟩,
      sampleProbe.Streams.get ⟨2, by decide⟩] []
    (sampleProbe.Streams.get ⟨3, by decide⟩) rfl rfl (by decide)
  exact ⟨rfl, md, hmd, hvideo, haudio, hv.1, hv.2.1, hv.2.2, ha.1, ha.2, hduration (Or.inl rfl)⟩

end Media

namespace UI

/-! ## formatFileSize -/

theorem wrapInt64_of_range (x : Int) (h0 : 0 ≤ x) (h1 : x < 9223372036854775808) :
    wrapInt64 x = x := by
  unfold wrapInt64
  omega

theorem unitLoop_spec (size : Int) (hsize : size < 9223372036854775808) :
    ∀ (fuel : Nat) (n : Int) (k : Nat),
      1 ≤ n → n < 1024 ^ fuel →
      (1024 : Int) ^ (k + 1) * n ≤ size → size < (1024 : Int) ^ (k + 1) * (n + 1) →
      ∃ k' : Nat, k ≤ k' ∧
        unitLoop fuel n ((1024 : Int) ^ (k + 1)) (k : Int)
          = some ((1024 : Int) ^ (k' + 1), (k' : Int)) ∧
        (1024 : Int) ^ (k' + 1) ≤ size ∧ size < 1024 * (1024 : Int) ^ (k' + 1) := by
  intro fuel
  induction fuel with
  | zero =>
    intro n k h1 hlt _ _
    simp at hlt
    omega
  | succ fuel ih =>
    intro n k h1 hlt hle hgt
    have hD : (0 : Int) < 1024 ^ (k + 1) := by positivity
    by_cases hn : n ≥ 1024
    · have hdiv : Int.tdiv n 1024 = n / 1024 := Int.tdiv_eq_ediv (by omega) (by decide)
      have hstep : (1024 : Int) ^ (k + 1) * 1024 = 1024 ^ (k + 1 + 1) := by ring
      have hbig : (1024 : Int) ^ (k + 1) * 1024 ≤ size := by
        have := Int.mul_le_mul_of_nonneg_left hn (Int.le_of_lt hD)
        omega
      have hwrap : wrapInt64 ((1024 : Int) ^ (k + 1) * 1024) = 1024 ^ (k + 1 + 1) := by
        rw [wrapInt64_of_range _ (by positivity) (by omega), hstep]
      have hlt' : n / 1024 < 1024 ^ fuel := by
        have hp : (1024 : Int) ^ (fuel + 1) = 1024 ^ fuel * 1024 := by ring
        rw [hp] at hlt
        omega
      have hle' : (1024 : Int) ^ (k + 1 + 1) * (n / 1024) ≤ size := by
        have h2 : 1024 * (n / 1024) ≤ n := by omega
        have := Int.mul_le_mul_of_nonneg_left h2 (Int.le_of_lt hD)
        rw [← hstep]
        calc (1024 : Int) ^ (k + 1) * 1024 * (n / 1024)
            = 1024 ^ (k + 1) * (1024 * (n / 1024)) := by ring
          _ ≤ 1024 ^ (k + 1) * n := this
          _ ≤ size := hle
      have hgt' : size < (1024 : Int) ^ (k + 1 + 1) * (n / 1024 + 1) := by
        have h2 : n + 1 ≤ 1024 * (n / 1024 + 1) := by omega
        have := Int.mul_le_mul_of_nonneg_left h2 (Int.le_of_lt hD)
        rw [← hstep]
        calc size < 1024 ^ (k + 1) * (n + 1) := hgt
          _ ≤ 1024 ^ (k + 1) * (1024 * (n / 1024 + 1)) := this
          _ = (1024 : Int) ^ (k + 1) * 1024 * (n / 1024 + 1) := by ring
      obtain ⟨k', hk, hrun, hlo, hhi⟩ := ih (n / 1024) (k + 1) (by omega) hlt' hle' hgt'
      refine ⟨k', by omega, ?_, hlo, hhi⟩
      rw [unitLoop, if_pos hn, hdiv, hwrap]
      have hcast : (k : Int) + 1 = ((k + 1 : Nat) : Int) := by push_cast; rfl
      rw [hcast]
      exact hrun
    · refine ⟨k, Nat.le_refl k, ?_, ?_, ?_⟩
      · rw [unitLoop, if_neg hn]
      · have := Int.mul_le_mul_of_nonneg_left h1 (Int.le_of_lt hD)
        omega
      · have h2 : n + 1 ≤ 1024 := by omega
        have := Int.mul_le_mul_of_nonneg_left h2 (Int.le_of_lt hD)
        omega

theorem unitChar_of_le (k : Nat) (hk : k ≤ 5) :
    ∃ unit : Char, unitChar (k : Int) = some unit ∧ "KMGTPE".toList[k]? = some unit := by
  interval_cases k
  · exact ⟨'K', by decide, by decide⟩
  · exact ⟨'M', by decide, by decide⟩
  · exact ⟨'G', by decide, by decide⟩
  · exact ⟨'T', by decide, by decide⟩
  · exact ⟨'P', by decide, by decide⟩
  · exact ⟨'E', by decide, by decide⟩

theorem mantissaTenths_bounds (size div : Int) (hdiv : 0 < div) (hlo : div ≤ size)
    (hhi : size < 1024 * div) :
    10 ≤ mantissaTenths size div ∧ mantissaTenths size div ≤ 10240 := by
  have h1 : 10 ≤ size * 10 / div := by
    rw [Int.le_ediv_iff_mul_le hdiv]
    omega
  have h2 : size * 10 / div < 10240 := by
    rw [Int.ediv_lt_iff_lt_mul hdiv]
    omega
  unfold mantissaTenths
  split
  · omega
  · split
    · omega
    · split <;> omega

/-- C26, as stated, fails in its last clause: for 1048575 bytes the divisor is
1024 and the unit is K, as claimed, but the mantissa 1023.999 is printed with one
decimal as 1024.0, which is not below 1024. -/
theorem formatFileSize_prints_1024 :
    formatFileSize 1048575 = some (FileSizeText.scaled 10240 'K') ∧
    unitLoop 64 (Int.tdiv 1048575 1024) 1024 0 = some (1024, 0) ∧
    mantissaTenths 1048575 1024 = 10240 ∧
    ¬ (mantissaTenths 1048575 1024 < 10240) := by
  decide

/-- C26, amended: for every 64-bit file size `formatFileSize` returns a text
and never indexes outside "KMGTPE". A size below 1024 is printed in bytes. For
a size of at least 1024 the loop ends with an exponent `exp` from 0 to 5 and the
divisor `1024^(exp+1)`, computed without overflow, with `div ≤ size < 1024 * div`;
the unit is the character number `exp` of "KMGTPE", and the mantissa `size / div`,
which lies in [1, 1024), is printed with one decimal as a value from 1.0 to
1024.0 inclusive. -/
theorem formatFileSize_safe (size : Int)
    (hlo : -9223372036854775808 ≤ size) (hhi : size ≤ 9223372036854775807) :
    (size < 1024 → formatFileSize size = some (FileSizeText.bytes size)) ∧
    (1024 ≤ size → ∃ (exp : Nat) (unit : Char),
      exp ≤ 5 ∧
      unitLoop 64 (Int.tdiv size 1024) 1024 0 = some ((1024 : Int) ^ (exp + 1), (exp : Int)) ∧
      (1024 : Int) ^ (exp + 1) ≤ size ∧ size < 1024 * (1024 : Int) ^ (exp + 1) ∧
      "KMGTPE".toList[exp]? = some unit ∧
      formatFileSize size
        = some (FileSizeText.scaled (mantissaTenths size ((1024 : Int) ^ (exp + 1))) unit) ∧
      10 ≤ mantissaTenths size ((1024 : Int) ^ (exp + 1)) ∧
      mantissaTenths size ((1024 : Int) ^ (exp + 1)) ≤ 10240) := by
  constructor
  · intro hsmall
    simp only [formatFileSize, hsmall, if_true]
  · intro hbig
    have hdiv : Int.tdiv size 1024 = size / 1024 := Int.tdiv_eq_ediv (by omega) (by decide)
    have hfuel : size / 1024 < (1024 : Int) ^ 64 := by
      have : (9223372036854775808 : Int) < 1024 ^ 64 := by norm_num
      omega
    obtain ⟨k, _, hrun, hle, hlt⟩ :=
      unitLoop_spec size (by omega) 64 (size / 1024) 0 (by omega) hfuel
        (by norm_num; omega) (by norm_num; omega)
    have hk : k ≤ 5 := by
      by_contra hcon
      have h6 : 6 + 1 ≤ k + 1 := by omega
      have hpow : (1024 : Int) ^ (6 + 1) ≤ 1024 ^ (k + 1) :=
        pow_le_pow_right₀ (by norm_num) h6
      have : (9223372036854775808 : Int) < 1024 ^ (6 + 1) := by norm_num
      omega
    obtain ⟨unit, hunit, hindex⟩ := unitChar_of_le k hk
    have hstart : unitLoop 64 (Int.tdiv size 1024) 1024 0
        = some ((1024 : Int) ^ (k + 1), (k : Int)) := by
      rw [hdiv]
      simpa using hrun
    have hbounds := mantissaTenths_bounds size ((1024 : Int) ^ (k + 1)) (by positivity) hle hlt
    refine ⟨k, unit, hk, hstart, hle, hlt, hindex, ?_, hbounds.1, hbounds.2⟩
    have hnot : ¬ size < 1024 := by omega
    simp only [formatFileSize, hnot, if_false, hstart, hunit]

theorem formatFileSize_safe_witness :
    (-9223372036854775808 : Int) ≤ 9223372036854775807 ∧
    (9223372036854775807 : Int) ≤ 9223372036854775807 ∧
    (1024 : Int) ≤ 9223372036854775807 ∧
    formatFileSize 9223372036854775807 = some (FileSizeText.scaled 80 'E') ∧
    ∃ (exp : Nat) (unit : Char), exp ≤ 5 ∧
      unitLoop 64 (Int.tdiv 9223372036854775807 1024) 1024 0
        = some ((1024 : Int) ^ (exp + 1), (exp : Int)) ∧
      "KMGTPE".toList[exp]? = some unit := by
  obtain ⟨exp, unit, hexp, hrun, _, _, hindex, _, _, _⟩ :=
    (formatFileSize_safe 9223372036854775807 (by decide) (by decide)).2 (by decide)
  exact ⟨by decide, by decide, by decide, by decide, exp, unit, hexp, hrun, hindex⟩

/-! ## The two duration formatters -/

/-- C27: for every non-negative duration the `formatDuration` of `player.go` and
the `formatDuration` of `media_view.go` return the same string, the one the
specification describes: with `s` the whole seconds of `d`, `HH:MM:SS` from
`s / 3600`, `(s mod 3600) / 60` and `s mod 60` when `s / 3600 > 0`, and `MM:SS`
otherwise, every number printed with `%02d`. -/
theorem formatDuration_agree (d : Int) (h : 0 ≤ d) :
    Media.formatDuration d = formatDuration d ∧
    formatDuration d = Media.formatDurationSpec d := by
  have hs : Int.tdiv d 1000000000 = d / 1000000000 := Int.tdiv_eq_ediv h (by decide)
  have hm : Int.tdiv d 60000000000 = d / 60000000000 := Int.tdiv_eq_ediv h (by decide)
  have hh : Int.tdiv d 3600000000000 = d / 3600000000000 := Int.tdiv_eq_ediv h (by decide)
  have hs0 : 0 ≤ d / 1000000000 := by omega
  have e1 : Int.tdiv (d / 1000000000) 3600 = d / 1000000000 / 3600 :=
    Int.tdiv_eq_ediv hs0 (by decide)
  have e2 : Int.tmod (d / 1000000000) 3600 = d / 1000000000 % 3600 :=
    Int.tmod_eq_emod hs0 (by decide)
  have e3 : Int.tdiv (d / 1000000000 % 3600) 60 = d / 1000000000 % 3600 / 60 :=
    Int.tdiv_eq_ediv (by omega) (by decide)
  have e4 : Int.tmod (d / 1000000000) 60 = d / 1000000000 % 60 :=
    Int.tmod_eq_emod hs0 (by decide)
  have e5 : Int.tmod (d / 60000000000) 60 = d / 60000000000 % 60 :=
    Int.tmod_eq_emod (by omega) (by decide)
  have a1 : d / 3600000000000 = d / 1000000000 / 3600 := by omega
  have a2 : d / 60000000000 % 60 = d / 1000000000 % 3600 / 60 := by omega
  have hmedia : Media.formatDuration d = Media.formatDurationSpec d := by
    simp only [Media.formatDuration, Media.formatDurationSpec, hs, e1, e2, e3, e4]
  have hui : formatDuration d = Media.formatDurationSpec d := by
    simp only [formatDuration, Media.formatDurationSpec, hs, hm, hh, e4, e5, a1, a2]
  exact ⟨hmedia.trans hui.symm, hui⟩

theorem formatDuration_agree_witness :
    (0 : Int) ≤ 3725000000000 ∧
    Media.formatDuration 3725000000000 = "01:02:05" ∧
    Media.formatDuration 3725000000000 = formatDuration 3725000000000 ∧
    formatDuration 3725000000000 = Media.formatDurationSpec 3725000000000 :=
  ⟨by decide, by decide, (formatDuration_agree 3725000000000 (by decide)).1,
    (formatDuration_agree 3725000000000 (by decide)).2⟩

end UI
